import Mathlib

/-!
Verification of the AIDev agentic task orchestrator.

This file gives a shallow embedding of the core of the AIDev repository
(`ai_assistant.py`, `ai_tools.py`, `github_client.py`) and proves or refutes
the frozen claims about it.  Python strings are modelled as `List Char`
(ASCII-faithful; the repository's objectives, paths and templates are ASCII),
Python `None`-able values as `Option`, Python dictionaries of tool results as
records with optional fields, and Python exceptions as an `Except` layer.
The remote GitHub collaborator is modelled as a record of response functions
(one per REST helper of `GitHubClient`), so a session is a pure function of
the collaborator's answers.
-/

namespace AIDev

/-- Python strings, modelled as lists of characters. -/
abbrev Str := List Char

/-- Literal helper: the character list of a string literal. -/
def str (s : String) : Str := s.data

/-- `s.lower()` for ASCII strings. -/
def toLowerL (s : Str) : Str := s.map Char.toLower

/-- Python `sub in s` — substring containment test. -/
def containsSub : Str → Str → Bool
  | [], t => t.isEmpty
  | c :: s, t => t.isPrefixOf (c :: s) || containsSub s t

/-- Number of positions of `s` at which `t` starts (occurrence count). -/
def countOcc : Str → Str → Nat
  | [], t => if t.isEmpty then 1 else 0
  | c :: s, t => (if t.isPrefixOf (c :: s) then 1 else 0) + countOcc s t

/-- Python `s.lstrip(ch)` for a single strip character. -/
def stripLead (ch : Char) (s : Str) : Str := s.dropWhile (· = ch)

/-- Python `s.strip(ch)` for a single strip character: drop `ch` from both ends. -/
def stripBoth (ch : Char) (s : Str) : Str :=
  ((s.dropWhile (· = ch)).reverse.dropWhile (· = ch)).reverse

/-- Python `s.split(ch)`: split on every occurrence, keeping empty pieces. -/
def splitOnChar (ch : Char) : Str → List Str
  | [] => [[]]
  | c :: rest =>
      let r := splitOnChar ch rest
      if c = ch then [] :: r
      else
        match r with
        | [] => [[c]]
        | h :: t => (c :: h) :: t

/-- Python `ch.join(parts)` for a single-character separator. -/
def joinChar (ch : Char) : List Str → Str
  | [] => []
  | [p] => p
  | p :: rest => p ++ ch :: joinChar ch rest

/-- ASCII letter test (the character class `[a-zA-Z]` of the branch-name regex). -/
def isAsciiLetter (c : Char) : Bool :=
  ('a' ≤ c && c ≤ 'z') || ('A' ≤ c && c ≤ 'Z')

/-- Python regex word character (`\w`), restricted to ASCII:
letters, digits and underscore.  The repository's objectives are ASCII text,
so the Unicode extension of `\w` is not modelled. -/
def isWordChar (c : Char) : Bool :=
  isAsciiLetter c || ('0' ≤ c && c ≤ '9') || c = '_'

/-- Worker for `findWordTokens`.  The Boolean argument records whether the
character immediately before the current position is a word character (so
that the `\b` boundaries of the regex can be decided).  Fuel-based structural
recursion so that concrete runs reduce inside the kernel. -/
def findWordTokensGo : Nat → Bool → Str → List Str
  | 0, _, _ => []
  | _ + 1, _, [] => []
  | fuel + 1, prevIsWordChar, c :: rest =>
      if isAsciiLetter c then
        let run : Str := c :: rest.takeWhile isAsciiLetter
        let rest' : Str := rest.dropWhile isAsciiLetter
        let okLeft : Bool := !prevIsWordChar
        let okRight : Bool :=
          match rest'.head? with
          | none => true
          | some n => !isWordChar n
        (if okLeft && okRight then [run] else []) ++ findWordTokensGo fuel true rest'
      else
        findWordTokensGo fuel (isWordChar c) rest

/-- `re.findall(r'\b[a-zA-Z]+\b', s)`: maximal runs of ASCII letters whose
neighbouring characters (when present) are not word characters. -/
def findWordTokens (s : Str) : List Str :=
  findWordTokensGo s.length false s

/-- The fixed stop-word set of `AIAssistant._generate_branch_name`. -/
def commonWords : List Str :=
  [str "the", str "a", str "an", str "and", str "or", str "but", str "in",
   str "on", str "at", str "to", str "for", str "of", str "with", str "by",
   str "is", str "are", str "was", str "were", str "be", str "been",
   str "being", str "have", str "has", str "had", str "do", str "does",
   str "did", str "will", str "would", str "could", str "should", str "may",
   str "might", str "can", str "this", str "that", str "these", str "those"]

/-- Embedding of `AIAssistant._generate_branch_name` (ai_assistant.py lines
77-109).  `timestamp` stands for `datetime.now().strftime("%Y%m%d-%H%M%S")`,
the only impure input, used solely on the fallback path. -/
def generate_branch_name (timestamp : Str) (objective : Str) : Str :=
  let words := findWordTokens (toLowerL objective)
  let meaningful := words.filter (fun w => !commonWords.contains w && w.length > 2)
  let summaryWords0 := meaningful.take 5
  let summaryWords :=
    if summaryWords0.length < 3 then
      let originalWords :=
        words.filter (fun w => !summaryWords0.contains w && w.length > 1)
      summaryWords0 ++ originalWords.take (5 - summaryWords0.length)
    else summaryWords0
  if summaryWords.isEmpty then
    str "ai-dev/task-" ++ timestamp
  else
    let summary := joinChar '-' summaryWords
    let summary' := if summary.length > 50 then summary.take 47 ++ str "..." else summary
    str "ai-dev/" ++ summary'

/-- The token pipeline of the branch-name derivation as the specification
words it: tokenize into lowercase word tokens, drop the stop-word set and
tokens of length at most 2, keep the first five remaining meaningful tokens. -/
def specMeaningfulTokens (objective : Str) : List Str :=
  ((findWordTokens (toLowerL objective)).filter
    (fun w => !commonWords.contains w && w.length > 2)).take 5

/-- Backfill step as the specification words it: when fewer than three
meaningful tokens remain, extend with original tokens of length greater than
one that were not already kept, until up to five tokens are present. -/
def specBackfill (objective : Str) (kept : List Str) : List Str :=
  if kept.length < 3 then
    kept ++ ((findWordTokens (toLowerL objective)).filter
      (fun w => !kept.contains w && w.length > 1)).take (5 - kept.length)
  else kept

/-- Rendering step as the specification words it: join with hyphens,
truncate the joined summary to 47 characters plus an ellipsis when it
exceeds 50 characters, and prefix the fixed namespace `ai-dev/`; fall back
to a timestamp-suffixed name when no usable token exists. -/
def specRender (timestamp : Str) (tokens : List Str) : Str :=
  if tokens.isEmpty then str "ai-dev/task-" ++ timestamp
  else
    let joined := joinChar '-' tokens
    str "ai-dev/" ++
      (if joined.length > 50 then joined.take 47 ++ str "..." else joined)

/-- Branch-name derivation assembled from the specification's own pipeline. -/
def branchNameSpec (timestamp : Str) (objective : Str) : Str :=
  specRender timestamp (specBackfill objective (specMeaningfulTokens objective))

/-! ## Data model of the tool layer (`ai_tools.py`, `github_client.py`) -/

/-- A JSON-ish parameter value handed to `execute_tool` (the tool parameters
of this catalog are strings and the Boolean `success` flag). -/
inductive JVal where
  | s (v : Str)
  | b (v : Bool)
deriving DecidableEq, Repr

/-- Python truthiness of a parameter value. -/
def JVal.truthy : JVal → Bool
  | .s v => !v.isEmpty
  | .b v => v

/-- Python `str(...)` of a parameter value as it would be interpolated into
an f-string. -/
def JVal.pyStr : JVal → Str
  | .s v => v
  | .b true => str "True"
  | .b false => str "False"

/-- A Python exception that escapes a function. -/
inductive PyExn where
  | keyError (key : Str)
  | exn (msg : Str)
deriving DecidableEq, Repr

/-- Python `str(e)` as used by the `except Exception as e` handlers. -/
def PyExn.message : PyExn → Str
  | .keyError k => '\'' :: (k ++ ['\''])
  | .exn m => m

/-- One entry of a repository directory listing (`github_client.py` lines
32-36 keep exactly name, path and type). -/
structure Entry where
  name : Str
  path : Str
  type_ : Str
deriving DecidableEq, Repr

/-- One record of the session mutation log (`ai_tools.py` lines 115-121,
177-183, 250-256). -/
structure FileChangeRecord where
  file_path : Str
  action : Str
  branch : Str
deriving DecidableEq, Repr

/-- The collaborator as `AITools` sees it: one response function per
`GitHubClient` helper it calls (owner, repo and branch are fixed for a
session and folded into the functions).  Responses are `Except` so that a
collaborator call may raise, and listings are `Option` so that a collaborator
may answer `None` — the duck-typed contract assumed by `ai_tools.py` and by
its unit-test mock, which "returns None for non-existent directories". -/
structure GhClient where
  getRepositoryStructure : Str → Except PyExn (Option (List Entry))
  getFileContent : Str → Except PyExn (Option Str)
  getFileSha : Str → Except PyExn (Option Str)
  updateFileContent : Str → Str → Str → Option Str → Except PyExn Bool
  getDefaultBranch : Str
  createPullRequest : Str → Str → Str → Str → Option Str

/-- The mutable state of an `AITools` instance. -/
structure ToolsState where
  cursor : Str
  branch : Str
  modified : List FileChangeRecord
deriving DecidableEq, Repr

/-- One invocation of `GitHubClient.update_file_content` (path, content,
commit message, sha) — the write effects a tool call performs. -/
structure WriteCall where
  path : Str
  content : Str
  message : Str
  sha : Option Str
deriving DecidableEq, Repr

/-- A tool-result dictionary.  Each Python tool returns a dict with a subset
of these keys; absent keys are the defaults below (`task_completed` and
`objective_success` are read back with `.get` and its default). -/
structure ToolResult where
  success : Bool
  error : Option Str := none
  contents : Option (List Entry) := none
  current_path : Option Str := none
  content : Option Str := none
  file_path : Option Str := none
  message : Option Str := none
  directory_path : Option Str := none
  gitkeep_file : Option Str := none
  branch : Option Str := none
  task_completed : Bool := false
  summary : Option JVal := none
  objective_success : JVal := .b true
  modified_files : Option (List FileChangeRecord) := none
deriving DecidableEq, Repr

/-- A failed tool result carrying only an error string. -/
def failRes (e : Str) : ToolResult := { success := false, error := some e }

/-- The `AttributeError` message produced when a non-string parameter is
subjected to `.startswith` inside a tool's `try` block. -/
def boolAttrError : Str := str "'bool' object has no attribute 'startswith'"

/-- The `AttributeError` message produced when a non-string content reaches
`content.encode` inside `GitHubClient.update_file_content`. -/
def boolEncodeError : Str := str "'bool' object has no attribute 'encode'"

/-- Path resolution of `read_file` / `update_file` / `add_file`
(ai_tools.py lines 47-51, 83-87, 145-149): no leading-slash rule; concatenate
with the cursor unless the path already starts with it. -/
def resolveFile (cursor path : Str) : Str :=
  if !cursor.isEmpty && !cursor.isPrefixOf path then
    stripBoth '/' (cursor ++ '/' :: path)
  else path

/-- Path resolution of `make_dir` (ai_tools.py lines 210-219): a leading
slash makes the path absolute (stripped of slashes); otherwise concatenate
with the cursor unless the path already starts with it. -/
def resolveDir (cursor path : Str) : Str :=
  if (['/'] : Str).isPrefixOf path then stripBoth '/' path
  else if !cursor.isEmpty && !cursor.isPrefixOf path then
    stripBoth '/' (cursor ++ '/' :: path)
  else path

/-- Path resolution of `change_dir` (ai_tools.py lines 282-302): absolute
paths, `..` (pop one segment, no-op at root), `.` (no-op), and plain relative
concatenation (with no starts-with-cursor check). -/
def resolveCd (cursor path : Str) : Str :=
  if (['/'] : Str).isPrefixOf path then stripBoth '/' path
  else if path = str ".." then
    if !cursor.isEmpty then
      let parts := splitOnChar '/' cursor
      if parts.length > 1 then joinChar '/' parts.dropLast else []
    else []
  else if path = str "." then cursor
  else if !cursor.isEmpty then stripBoth '/' (cursor ++ '/' :: path)
  else path

/-- Embedding of `AITools.get_directory` (ai_tools.py lines 14-40). -/
def get_directory (cl : GhClient) (st : ToolsState) (directory_path : JVal) :
    ToolResult × ToolsState × List WriteCall :=
  let target := if directory_path.truthy then directory_path.pyStr else []
  match cl.getRepositoryStructure target with
  | .error e => (failRes e.message, st, [])
  | .ok contents =>
      ({ success := true, contents := contents,
         current_path := some target, branch := some st.branch }, st, [])

/-- Embedding of `AITools.read_file` (ai_tools.py lines 42-76). -/
def read_file (cl : GhClient) (st : ToolsState) (file_path : JVal) :
    ToolResult × ToolsState × List WriteCall :=
  match file_path with
  | .b _ => (failRes boolAttrError, st, [])
  | .s fp =>
      let full := resolveFile st.cursor fp
      match cl.getFileContent full with
      | .error e => (failRes e.message, st, [])
      | .ok (some c) =>
          ({ success := true, content := some c, file_path := some full,
             branch := some st.branch }, st, [])
      | .ok none => (failRes (str "Could not read file: " ++ full), st, [])

/-- Python truthiness of an optional SHA string (`if not sha:` /
`if existing_sha:`). -/
def shaTruthy : Option Str → Bool
  | none => false
  | some s => !s.isEmpty

/-- Embedding of `AITools.update_file` (ai_tools.py lines 78-138). -/
def update_file (cl : GhClient) (st : ToolsState) (file_path content : JVal) :
    ToolResult × ToolsState × List WriteCall :=
  match file_path with
  | .b _ => (failRes boolAttrError, st, [])
  | .s fp =>
      let full := resolveFile st.cursor fp
      match cl.getFileSha full with
      | .error e => (failRes e.message, st, [])
      | .ok sha =>
          if !shaTruthy sha then
            (failRes (str "Could not get SHA for file: " ++ full), st, [])
          else
            match content with
            | .b _ => (failRes boolEncodeError, st, [])
            | .s c =>
                let msg := str "AI Dev: Update " ++ full
                let w : WriteCall := ⟨full, c, msg, sha⟩
                match cl.updateFileContent full c msg sha with
                | .error e => (failRes e.message, st, [w])
                | .ok true =>
                    ({ success := true,
                       message := some (str "Successfully updated " ++ full ++
                         str " on branch " ++ st.branch),
                       branch := some st.branch },
                     { st with modified := st.modified ++
                         [⟨full, str "updated", st.branch⟩] }, [w])
                | .ok false =>
                    (failRes (str "Failed to update " ++ full), st, [w])

/-- Embedding of `AITools.add_file` (ai_tools.py lines 140-200). -/
def add_file (cl : GhClient) (st : ToolsState) (file_path content : JVal) :
    ToolResult × ToolsState × List WriteCall :=
  match file_path with
  | .b _ => (failRes boolAttrError, st, [])
  | .s fp =>
      let full := resolveFile st.cursor fp
      match cl.getFileSha full with
      | .error e => (failRes e.message, st, [])
      | .ok existingSha =>
          if shaTruthy existingSha then
            (failRes (str "File already exists: " ++ full ++
              str ". Use update_file to modify existing files."), st, [])
          else
            match content with
            | .b _ => (failRes boolEncodeError, st, [])
            | .s c =>
                let msg := str "AI Dev: Add " ++ full
                let w : WriteCall := ⟨full, c, msg, none⟩
                match cl.updateFileContent full c msg none with
                | .error e => (failRes e.message, st, [w])
                | .ok true =>
                    ({ success := true,
                       message := some (str "Successfully created " ++ full ++
                         str " on branch " ++ st.branch),
                       branch := some st.branch },
                     { st with modified := st.modified ++
                         [⟨full, str "created", st.branch⟩] }, [w])
                | .ok false =>
                    (failRes (str "Failed to create " ++ full), st, [w])

/-- Explanatory content of the `.gitkeep` marker file created by `make_dir`. -/
def gitkeepContent : Str :=
  str "# This file keeps the directory in Git\n# You can safely delete this file if the directory has other content\n"

/-- Embedding of `AITools.make_dir` (ai_tools.py lines 202-275). -/
def make_dir (cl : GhClient) (st : ToolsState) (directory_path : JVal) :
    ToolResult × ToolsState × List WriteCall :=
  match directory_path with
  | .b _ => (failRes boolAttrError, st, [])
  | .s dp =>
      let full := resolveDir st.cursor dp
      match cl.getRepositoryStructure full with
      | .error e => (failRes e.message, st, [])
      | .ok (some _) =>
          (failRes (str "Directory already exists: " ++ full), st, [])
      | .ok none =>
          let gitkeepPath := full ++ str "/.gitkeep"
          let msg := str "AI Dev: Create directory " ++ full
          let w : WriteCall := ⟨gitkeepPath, gitkeepContent, msg, none⟩
          match cl.updateFileContent gitkeepPath gitkeepContent msg none with
          | .error e => (failRes e.message, st, [w])
          | .ok true =>
              ({ success := true,
                 message := some (str "Successfully created directory " ++ full ++
                   str " on branch " ++ st.branch),
                 directory_path := some full,
                 gitkeep_file := some gitkeepPath,
                 branch := some st.branch },
               { st with modified := st.modified ++
                   [⟨gitkeepPath, str "created", st.branch⟩] }, [w])
          | .ok false =>
              (failRes (str "Failed to create directory " ++ full), st, [w])

/-- Embedding of `AITools.change_dir` (ai_tools.py lines 277-330). -/
def change_dir (cl : GhClient) (st : ToolsState) (directory_path : JVal) :
    ToolResult × ToolsState × List WriteCall :=
  match directory_path with
  | .b _ => (failRes boolAttrError, st, [])
  | .s dp =>
      let newPath := resolveCd st.cursor dp
      match cl.getRepositoryStructure newPath with
      | .error e => (failRes e.message, st, [])
      | .ok (some cs) =>
          ({ success := true, current_path := some newPath,
             contents := some cs, branch := some st.branch },
           { st with cursor := newPath }, [])
      | .ok none =>
          (failRes (str "Directory not found: " ++ newPath), st, [])

/-- Embedding of `AITools.get_modified_files` (ai_tools.py lines 448-452):
the value of the returned copy (aliasing is modelled separately below). -/
def get_modified_files (st : ToolsState) : List FileChangeRecord :=
  st.modified

/-- Embedding of `AITools.finish_task` (ai_tools.py lines 454-464). -/
def finish_task (st : ToolsState) (summary success : JVal) :
    ToolResult × ToolsState × List WriteCall :=
  ({ success := true, task_completed := true, summary := some summary,
     objective_success := success,
     modified_files := some st.modified }, st, [])

/-- Dictionary lookup in the parameters mapping. -/
def lookupParam (params : List (Str × JVal)) (key : Str) : Option JVal :=
  (params.find? (fun kv => kv.1 = key)).map Prod.snd

/-- Embedding of `AITools.execute_tool` (ai_tools.py lines 466-492).
`parameters["k"]` on a missing key raises `KeyError` out of the dispatcher
(there is no `try` in `execute_tool` itself), which the `Except` layer
records; `parameters.get` never raises. -/
def execute_tool (cl : GhClient) (st : ToolsState) (toolName : Str)
    (params : List (Str × JVal)) :
    Except PyExn (ToolResult × ToolsState × List WriteCall) :=
  if toolName = str "get_directory" then
    .ok (get_directory cl st ((lookupParam params (str "directory_path")).getD (.s [])))
  else if toolName = str "read_file" then
    match lookupParam params (str "file_path") with
    | none => .error (.keyError (str "file_path"))
    | some fp => .ok (read_file cl st fp)
  else if toolName = str "update_file" then
    match lookupParam params (str "file_path") with
    | none => .error (.keyError (str "file_path"))
    | some fp =>
        match lookupParam params (str "content") with
        | none => .error (.keyError (str "content"))
        | some c => .ok (update_file cl st fp c)
  else if toolName = str "add_file" then
    match lookupParam params (str "file_path") with
    | none => .error (.keyError (str "file_path"))
    | some fp =>
        match lookupParam params (str "content") with
        | none => .error (.keyError (str "content"))
        | some c => .ok (add_file cl st fp c)
  else if toolName = str "make_dir" then
    match lookupParam params (str "directory_path") with
    | none => .error (.keyError (str "directory_path"))
    | some dp => .ok (make_dir cl st dp)
  else if toolName = str "change_dir" then
    match lookupParam params (str "directory_path") with
    | none => .error (.keyError (str "directory_path"))
    | some dp => .ok (change_dir cl st dp)
  else if toolName = str "finish_task" then
    match lookupParam params (str "summary") with
    | none => .error (.keyError (str "summary"))
    | some s =>
        .ok (finish_task st s ((lookupParam params (str "success")).getD (.b true)))
  else
    .ok ({ success := false, error := some (str "Unknown tool: " ++ toolName) }, st, [])

/-! ## The production collaborator (`github_client.py`)

`GitHubClient.get_repository_structure` (lines 15-43) catches every
`requests.exceptions.RequestException` — including the 404 raised by
`raise_for_status` when the directory does not exist — and returns the empty
list, so it never returns `None`.  A `World` gives the remote's raw answer to
each request: `none` means the HTTP request failed (missing path, network
error), `some l` a listing. -/

structure World where
  dirs : Str → Option (List Entry)
  shas : Str → Option Str
  contentsOf : Str → Option Str
  writeOk : Str → Bool

/-- Embedding of `GitHubClient.get_repository_structure`: a failed request is
caught and becomes the empty list — absence is never surfaced. -/
def GitHubClient.get_repository_structure (w : World) (path : Str) : List Entry :=
  match w.dirs path with
  | some l => l
  | none => []

/-- The `AITools`-facing view of the production `GitHubClient`: its listing
answer is always a list (never `None`). -/
def realClient (w : World) : GhClient where
  getRepositoryStructure := fun p => .ok (some (GitHubClient.get_repository_structure w p))
  getFileContent := fun p => .ok (w.contentsOf p)
  getFileSha := fun p => .ok (w.shas p)
  updateFileContent := fun p _ _ _ => .ok (w.writeOk p)
  getDefaultBranch := str "main"
  createPullRequest := fun _ _ _ _ => none

/-- A world in which no path exists: every request fails. -/
def emptyWorld : World where
  dirs := fun _ => none
  shas := fun _ => none
  contentsOf := fun _ => none
  writeOk := fun _ => true

/-! ## Session-level tool dispatch -/

/-- One dispatched call of a session: tool name, parameters, and the
collaborator's behaviour during that call. -/
structure Step where
  toolName : Str
  params : List (Str × JVal)
  client : GhClient

/-- Run a list of dispatched tool calls in order, threading the `AITools`
state.  A `KeyError` escaping `execute_tool` crashes the session (there is no
handler in the loop), so the run stops there. -/
def runCalls (st : ToolsState) : List Step → ToolsState × List (Str × Except PyExn ToolResult)
  | [] => (st, [])
  | s :: rest =>
      match execute_tool s.client st s.toolName s.params with
      | .error e => (st, [(s.toolName, .error e)])
      | .ok (r, st', _) =>
          let (stf, outs) := runCalls st' rest
          (stf, (s.toolName, .ok r) :: outs)

/-- The tool names whose success appends a mutation record. -/
def mutatingNames : List Str := [str "update_file", str "add_file", str "make_dir"]

/-- Count the successful create/update tool calls among dispatch outcomes. -/
def countMutSuccess (outs : List (Str × Except PyExn ToolResult)) : Nat :=
  outs.countP (fun o =>
    mutatingNames.contains o.1 &&
      match o.2 with
      | .ok r => r.success
      | .error _ => false)

/-! ## Pull-request synthesis (`ai_assistant.py` lines 440-471) -/

/-- Decimal rendering of the iteration counter. -/
def natStr (n : Nat) : Str := (Nat.repr n).data

/-- The `file_changes_section` of `_create_pr_description`. -/
def fileChangesSection (modified_files : List FileChangeRecord) : Str :=
  if modified_files.isEmpty then str "\n**Files Changed:** None\n"
  else
    str "\n**Files Changed:**\n" ++
      (modified_files.map (fun f =>
        str "• `" ++ f.file_path ++ str "` - " ++ f.action ++ str "\n")).flatten

/-- Everything of the PR body before the summary section. -/
def prBodyPre (objective branch : Str) (iterations : Nat)
    (modified_files : List FileChangeRecord) : Str :=
  str "This pull request was created by the AI Dev.\n\n**Objective:** " ++
    objective ++ str "\n\n**Branch:** " ++ branch ++ str "\n**Iterations:** " ++
    natStr iterations ++ str "\n" ++ fileChangesSection modified_files

/-- The `summary_section` of `_create_pr_description`: empty when the summary
string is empty. -/
def summarySection (ai_summary : Str) : Str :=
  if ai_summary.isEmpty then []
  else str "\n**Summary:**\n" ++ ai_summary ++ str "\n"

/-- The closing line of the PR body. -/
def prBodyTail : Str := str "\nPlease review the changes before merging."

/-- Embedding of `AIAssistant._create_pr_description`. -/
def _create_pr_description (objective branch : Str) (iterations : Nat)
    (ai_summary : Str) (modified_files : List FileChangeRecord) : Str :=
  prBodyPre objective branch iterations modified_files ++
    summarySection ai_summary ++ prBodyTail

/-! ## The RUNNING loop of `AIAssistant.execute_objective`
(ai_assistant.py lines 263-424) -/

/-- One structured tool-call request of an assistant turn.  `args` is the
parsed `json.loads` of the request arguments (a parse failure yields the
empty mapping, line 356). -/
structure ToolCallReq where
  id : Str
  toolName : Str
  args : List (Str × JVal)
deriving DecidableEq, Repr

/-- One reasoning-engine answer, as `call_openai` surfaces it: either an
error envelope (lines 179-184) or content plus structured tool calls. -/
inductive AiResp where
  | err (e : Str)
  | ok (content : Option Str) (toolCalls : List ToolCallReq)
deriving DecidableEq, Repr

/-- A transcript message.  The system message's full prompt text is a
function of the objective (plus the live repository snapshot, which no claim
inspects), so only the objective is carried. -/
inductive Msg where
  | system (objective : Str)
  | user (content : Str)
  | assistant (content : Option Str) (toolCalls : List ToolCallReq)
  | tool (id : Str) (result : ToolResult)
deriving DecidableEq, Repr

/-- Per-session loop configuration. -/
structure Cfg where
  objective : Str
  maxIterations : Nat
  createPr : Bool
  branchCreated : Bool
  workingBranch : Str

/-- Mutable state across loop iterations. -/
structure LoopState where
  iteration : Nat
  history : List Msg
  tools : ToolsState
deriving Repr

/-- The fixed legacy completion phrases (ai_assistant.py lines 306-308). -/
def completionPhrases : List Str :=
  [str "task is complete", str "objective is complete", str "finished", str "done"]

/-- `content and any(phrase in content.lower() for phrase in ...)`. -/
def legacyCompletion (content : Option Str) : Bool :=
  match content with
  | none => false
  | some c => !c.isEmpty && completionPhrases.any (fun p => containsSub (toLowerL c) p)

/-- Pull-request creation as both completion paths perform it: only when PR
creation was requested and the branch was actually created; the collaborator
may still answer `None`. -/
def mkPrUrl (cfg : Cfg) (cl : GhClient) (iteration : Nat) (ai_summary : Str)
    (modified_files : List FileChangeRecord) : Option Str :=
  if cfg.createPr && cfg.branchCreated then
    cl.createPullRequest cfg.workingBranch cl.getDefaultBranch
      (str "AI Dev: " ++ cfg.objective)
      (_create_pr_description cfg.objective cfg.workingBranch iteration
        ai_summary modified_files)
  else none

/-- The result record of one session, one constructor per distinct return
dictionary of `execute_objective` (they differ in their `message`/key sets). -/
inductive Outcome where
  | apiError (error : Str) (iterations : Nat)
  | legacy (final_response : Str) (iterations : Nat) (branch : Str)
      (pull_request_url : Option Str) (used_main_branch : Bool)
  | structured (success : JVal) (final_response : JVal) (iterations : Nat)
      (branch : Str) (pull_request_url : Option Str) (used_main_branch : Bool)
      (modified_files : List FileChangeRecord)
  | exhausted (iterations : Nat) (branch : Str)
deriving DecidableEq, Repr

/-- Result of processing the tool calls of one assistant turn. -/
inductive ToolLoopRes where
  | crashed (e : PyExn)
  | complete (o : Outcome)
  | done (tools : ToolsState) (history : List Msg)

/-- Execute the requested tool calls of one turn in request order
(ai_assistant.py lines 350-413): a `finish_task` result with
`task_completed` set completes the session at once (skipping the rest);
any other result is appended to the transcript; a `KeyError` from the
dispatcher crashes the session. -/
def runToolCalls (cfg : Cfg) (cl : GhClient) (iteration : Nat) :
    ToolsState → List Msg → List ToolCallReq → ToolLoopRes
  | tools, hist, [] => .done tools hist
  | tools, hist, tc :: rest =>
      match execute_tool cl tools tc.toolName tc.args with
      | .error e => .crashed e
      | .ok (r, tools', _) =>
          if tc.toolName = str "finish_task" && r.task_completed then
            let modified := r.modified_files.getD []
            let aiSummary := (r.summary.getD (.s (str "Task completed successfully"))).pyStr
            .complete (.structured r.objective_success
              (r.summary.getD (.s (str "Task completed"))) iteration
              cfg.workingBranch (mkPrUrl cfg cl iteration aiSummary modified)
              (!cfg.branchCreated) modified)
          else
            runToolCalls cfg cl iteration tools' (hist ++ [Msg.tool tc.id r]) rest

/-- Result of one iteration of the RUNNING loop. -/
inductive StepRes where
  | crashed (e : PyExn)
  | complete (o : Outcome)
  | next (st : LoopState)

/-- One iteration of the RUNNING loop (ai_assistant.py lines 264-417), with
the iteration counter already incremented in `st`: handle an API error
(fatal); append the assistant message; termination check A — the legacy
substring match on the free text, which returns at once using that text as
the summary; otherwise run the requested tool calls, where a `finish_task`
result completes via the structured path; with no tool calls and no
completion, append the synthetic continue nudge. -/
def runStep (cfg : Cfg) (cl : GhClient) (st : LoopState) (resp : AiResp) : StepRes :=
  match resp with
  | .err e => .complete (.apiError e st.iteration)
  | .ok content toolCalls =>
      let hist1 := st.history ++ [Msg.assistant content toolCalls]
      if legacyCompletion content then
        let c := content.getD []
        .complete (.legacy c st.iteration cfg.workingBranch
          (mkPrUrl cfg cl st.iteration c (get_modified_files st.tools))
          (!cfg.branchCreated))
      else if !toolCalls.isEmpty then
        match runToolCalls cfg cl st.iteration st.tools hist1 toolCalls with
        | .crashed e => .crashed e
        | .complete o => .complete o
        | .done tools' hist2 => .next ⟨st.iteration, hist2, tools'⟩
      else
        .next ⟨st.iteration,
          hist1 ++ [Msg.user (str "Please continue with the next step or use a tool to proceed.")],
          st.tools⟩

/-- The RUNNING loop: up to `maxIterations` iterations driven by the streams
of reasoning-engine answers and collaborator behaviours (one per iteration);
running out of budget yields the exhaustion outcome (lines 419-424). -/
def runLoop (cfg : Cfg) (resps : Nat → AiResp) (clients : Nat → GhClient) :
    Nat → LoopState → Except PyExn Outcome
  | 0, st => .ok (.exhausted st.iteration cfg.workingBranch)
  | fuel + 1, st =>
      let st1 := { st with iteration := st.iteration + 1 }
      match runStep cfg (clients st1.iteration) st1 (resps st1.iteration) with
      | .crashed e => .error e
      | .complete o => .ok o
      | .next st' => runLoop cfg resps clients fuel st'

/-- Embedding of the RUNNING phase of `AIAssistant.execute_objective`: the
initial transcript is the system prompt plus the user restatement (lines
256-261), then the loop runs on the iteration budget. -/
def execute_objective (cfg : Cfg) (resps : Nat → AiResp) (clients : Nat → GhClient)
    (initialTools : ToolsState) : Except PyExn Outcome :=
  runLoop cfg resps clients cfg.maxIterations
    ⟨0,
     [Msg.system cfg.objective,
      Msg.user (str "Please help me complete this objective: " ++ cfg.objective)],
     initialTools⟩

/-! ## Aliasing model for the mutation-log copies

`get_modified_files` and `finish_task` return `self.modified_files.copy()`.
To state what a copy buys, Python list values are modelled as references
into a heap of list cells; `.copy()` allocates a fresh cell with the same
contents, `.append` and slice assignment mutate a cell in place. -/

/-- A reference to a list cell. -/
abbrev Ref := Nat

/-- The heap of mutable list values. -/
structure Heap where
  cells : List (List FileChangeRecord)
deriving Repr

/-- Dereference (a dangling reference reads as the empty list). -/
def Heap.get (h : Heap) (r : Ref) : List FileChangeRecord := h.cells.getD r []

/-- Allocate a fresh cell. -/
def Heap.alloc (h : Heap) (v : List FileChangeRecord) : Ref × Heap :=
  (h.cells.length, ⟨h.cells ++ [v]⟩)

/-- In-place mutation of the cell behind a reference — any Python list
mutation (append, remove, slice assignment) is an instance. -/
def Heap.setCell (h : Heap) (r : Ref) (v : List FileChangeRecord) : Heap :=
  ⟨h.cells.set r v⟩

/-- `lst.append(x)` through a reference. -/
def Heap.appendAt (h : Heap) (r : Ref) (x : FileChangeRecord) : Heap :=
  h.setCell r (h.get r ++ [x])

/-- `self.modified_files.copy()`: a fresh cell holding the same records. -/
def listCopy (h : Heap) (r : Ref) : Ref × Heap := h.alloc (h.get r)

/-- `AITools.get_modified_files` under the aliasing model: returns a copy of
the session's log cell. -/
def get_modified_files_ref (h : Heap) (logRef : Ref) : Ref × Heap :=
  listCopy h logRef

/-- The `modified_files` field of `AITools.finish_task` under the aliasing
model: the result dictionary carries a copy of the log cell. -/
def finish_task_ref (h : Heap) (logRef : Ref) : Ref × Heap :=
  listCopy h logRef

/-- A cursor value as the session can actually produce it: no leading and no
trailing path separator (the initial cursor is empty and every later cursor
is a `strip("/")` image or a join of such segments). -/
def goodCursor (c : Str) : Prop :=
  stripLead '/' c = c ∧ (c.reverse.dropWhile (· = '/')).reverse = c

/-- The parameter keys that `execute_tool` subscripts directly
(`parameters["…"]`), per tool name. -/
def requiredKeys (toolName : Str) : List Str :=
  if toolName = str "read_file" then [str "file_path"]
  else if toolName = str "update_file" then [str "file_path", str "content"]
  else if toolName = str "add_file" then [str "file_path", str "content"]
  else if toolName = str "make_dir" then [str "directory_path"]
  else if toolName = str "change_dir" then [str "directory_path"]
  else if toolName = str "finish_task" then [str "summary"]
  else []

/-- The fixed tool catalog of `AITools.get_tool_schemas`. -/
def catalogNames : List Str :=
  [str "get_directory", str "read_file", str "update_file", str "add_file",
   str "make_dir", str "change_dir", str "finish_task"]

/-- A collaborator that answers `None` to every read and accepts every
write — the contract of the unit-test mock for non-existent paths. -/
def clientNone : GhClient where
  getRepositoryStructure := fun _ => .ok none
  getFileContent := fun _ => .ok none
  getFileSha := fun _ => .ok none
  updateFileContent := fun _ _ _ _ => .ok true
  getDefaultBranch := str "main"
  createPullRequest := fun _ _ _ _ => none

/-! ## Helper lemmas -/

theorem length_dropWhile_le' (p : Char → Bool) (l : Str) :
    (l.dropWhile p).length ≤ l.length := by
  induction l with
  | nil => simp
  | cons c t ih =>
      by_cases h : p c
      · simpa [List.dropWhile_cons, h] using Nat.le_trans ih (Nat.le_succ _)
      · simp [List.dropWhile_cons, h]

theorem goodCursor_head_ne (c : Str) (hc : goodCursor c) (c₀ : Char) (t : Str)
    (he : c = c₀ :: t) : c₀ ≠ '/' := by
  intro h0
  have h1 := hc.1
  rw [he, h0] at h1
  rw [show stripLead '/' ('/' :: t) = t.dropWhile (· = '/') by
    simp [stripLead]] at h1
  have hl := length_dropWhile_le' (· = '/') t
  rw [h1] at hl
  simp at hl

theorem stripLead_of_head_ne (c₀ : Char) (t : Str) (h : c₀ ≠ '/') :
    stripLead '/' (c₀ :: t) = c₀ :: t := by
  simp [stripLead, List.dropWhile_cons, h]

theorem stripTrail_append_sep (s : Str) :
    ((s ++ ['/']).reverse.dropWhile (· = '/')).reverse =
      (s.reverse.dropWhile (· = '/')).reverse := by
  simp [List.reverse_append, List.dropWhile_cons]

theorem stripBoth_good_append_sep (c : Str) (hc : goodCursor c) (hne : c ≠ []) :
    stripBoth '/' (c ++ ['/']) = c := by
  obtain ⟨c₀, t, rfl⟩ : ∃ c₀ t, c = c₀ :: t := by
    cases c with
    | nil => exact absurd rfl hne
    | cons c₀ t => exact ⟨c₀, t, rfl⟩
  have h0 : c₀ ≠ '/' := goodCursor_head_ne _ hc c₀ t rfl
  unfold stripBoth
  have h1 : (c₀ :: t ++ ['/']).dropWhile (· = '/') = c₀ :: t ++ ['/'] := by
    simp [List.dropWhile_cons, h0]
  rw [h1]
  have h2 := stripTrail_append_sep (c₀ :: t)
  rw [show (c₀ :: t) ++ ['/'] = c₀ :: (t ++ ['/']) by simp] at h2 ⊢
  rw [h2]
  have h3 := hc.2
  exact h3

theorem isPrefixOf_nil_iff (c : Str) : c.isPrefixOf ([] : Str) = true ↔ c = [] := by
  cases c <;> simp [List.isPrefixOf]

theorem self_isPrefixOf_append (c t : Str) : c.isPrefixOf (c ++ t) = true := by
  rw [List.isPrefixOf_iff_prefix]
  exact List.prefix_append c t

/-! ## C4: branch-name derivation -/

/-- Claim C4: with no branch name supplied, the derived branch name follows
exactly the specification pipeline — tokenize the lowercased objective into
word tokens, drop the stop-word set and tokens of length ≤ 2, keep the first
five, backfill with original tokens of length > 1 when fewer than three
remain, join with hyphens, truncate to 47 characters plus an ellipsis past
50, and prefix the fixed `ai-dev/` namespace — and, whenever any usable
token exists, the result is independent of the timestamp (determinism up to
the timestamp fallback). -/
theorem C4_branch_name_derivation :
    (∀ ts obj, generate_branch_name ts obj = branchNameSpec ts obj) ∧
    (∀ ts₁ ts₂ obj, specBackfill obj (specMeaningfulTokens obj) ≠ [] →
      generate_branch_name ts₁ obj = generate_branch_name ts₂ obj) ∧
    (∀ ts obj, (str "ai-dev/").isPrefixOf (generate_branch_name ts obj) = true) := by
  refine ⟨fun ts obj => rfl, ?_, ?_⟩
  · intro ts₁ ts₂ obj h
    have ha : ∀ ts, generate_branch_name ts obj =
        specRender ts (specBackfill obj (specMeaningfulTokens obj)) :=
      fun ts => rfl
    rw [ha ts₁, ha ts₂]
    unfold specRender
    cases he : specBackfill obj (specMeaningfulTokens obj) with
    | nil => exact absurd he h
    | cons a l => simp
  · intro ts obj
    have ha : generate_branch_name ts obj =
        specRender ts (specBackfill obj (specMeaningfulTokens obj)) := rfl
    rw [ha]
    unfold specRender
    cases specBackfill obj (specMeaningfulTokens obj) with
    | nil =>
        simp only [List.isEmpty_nil, if_pos]
        have : str "ai-dev/task-" ++ ts = str "ai-dev/" ++ (str "task-" ++ ts) := by
          simp [str]
        rw [this]
        exact self_isPrefixOf_append _ _
    | cons a l =>
        simp only [List.isEmpty_cons, Bool.false_eq_true, if_false]
        exact self_isPrefixOf_append _ _

/-- Witness for C4 at the §8 scenario objective. -/
theorem C4_branch_name_derivation_witness :
    generate_branch_name (str "20250101-000000") (str "Add input validation to signup form") =
      branchNameSpec (str "20250101-000000") (str "Add input validation to signup form") ∧
    generate_branch_name (str "A") (str "Add input validation to signup form") =
      generate_branch_name (str "B") (str "Add input validation to signup form") :=
  ⟨C4_branch_name_derivation.1 _ _,
   C4_branch_name_derivation.2.1 _ _ _ (by decide)⟩

/-! ## C5: path resolution -/

/-- Counterexample to claim C5 as stated: the resolution used by
`read_file` / `update_file` / `add_file` has no leading-slash rule, so
`resolve("/x")` is `"src//x"` at cursor `"src"`, not `"x"`; and the
directory resolver maps `cursor ++ "/y"` to `"y"` at the empty cursor, not
to `cursor ++ "/y"`. -/
theorem C5_resolution_counterexample :
    resolveFile (str "src") (str "/x") = str "src//x" ∧
    resolveFile (str "src") (str "/x") ≠ str "x" ∧
    resolveDir [] ([] ++ str "/y") ≠ [] ++ str "/y" := by
  decide

/-- Claim C5 as amended: `resolve("") = cursor` holds for both resolvers for
every well-formed cursor; `resolve("/x") = "x"` holds for the directory
resolver (`make_dir`/`change_dir`) for every cursor, while the file resolver
treats a leading slash like any other relative path; and
`resolve(cursor ++ "/y") = cursor ++ "/y"` (no double-prefixing) holds for
the file resolver for every cursor and for the directory resolver for every
non-empty well-formed cursor.  The checks apply in the order: leading slash
(directory resolver only), starts-with-cursor, otherwise concatenation. -/
theorem C5_resolution_amended :
    (∀ cursor, goodCursor cursor → resolveFile cursor [] = cursor) ∧
    (∀ cursor y, resolveFile cursor (cursor ++ '/' :: y) = cursor ++ '/' :: y) ∧
    (∀ cursor, goodCursor cursor → resolveDir cursor [] = cursor) ∧
    (∀ cursor x, goodCursor x → resolveDir cursor ('/' :: x) = x) ∧
    (∀ cursor y, cursor ≠ [] → goodCursor cursor →
      resolveDir cursor (cursor ++ '/' :: y) = cursor ++ '/' :: y) := by
  refine ⟨?_, ?_, ?_, ?_, ?_⟩
  · intro cursor hc
    cases cursor with
    | nil => simp [resolveFile]
    | cons c₀ t =>
        rw [show resolveFile (c₀ :: t) [] = stripBoth '/' ((c₀ :: t) ++ ['/']) by
          simp [resolveFile, List.isPrefixOf]]
        exact stripBoth_good_append_sep (c₀ :: t) hc (List.cons_ne_nil _ _)
  · intro cursor y
    unfold resolveFile
    rw [show cursor ++ '/' :: y = cursor ++ ('/' :: y) from rfl,
      self_isPrefixOf_append cursor ('/' :: y)]
    simp
  · intro cursor hc
    cases cursor with
    | nil => simp [resolveDir, List.isPrefixOf]
    | cons c₀ t =>
        rw [show resolveDir (c₀ :: t) [] = stripBoth '/' ((c₀ :: t) ++ ['/']) by
          simp [resolveDir, List.isPrefixOf]]
        exact stripBoth_good_append_sep (c₀ :: t) hc (List.cons_ne_nil _ _)
  · intro cursor x hx
    unfold resolveDir
    rw [if_pos (by simp [List.isPrefixOf])]
    unfold stripBoth
    rw [show ('/' :: x).dropWhile (· = '/') = x.dropWhile (· = '/') by
      simp [List.dropWhile_cons]]
    rw [show x.dropWhile (· = '/') = x from hx.1]
    exact hx.2
  · intro cursor y hne hc
    obtain ⟨c₀, t, rfl⟩ : ∃ c₀ t, cursor = c₀ :: t := by
      cases cursor with
      | nil => exact absurd rfl hne
      | cons c₀ t => exact ⟨c₀, t, rfl⟩
    have h0 : c₀ ≠ '/' := goodCursor_head_ne _ hc c₀ t rfl
    unfold resolveDir
    rw [if_neg (by simp [List.isPrefixOf]; exact fun h => h0 h.symm)]
    rw [show (c₀ :: t) ++ '/' :: y = (c₀ :: t) ++ ('/' :: y) from rfl,
      self_isPrefixOf_append (c₀ :: t) ('/' :: y)]
    simp

/-- Witness for C5 as amended at cursor `"src"`. -/
theorem C5_resolution_amended_witness :
    resolveFile (str "src") [] = str "src" ∧
    resolveDir (str "src") [] = str "src" ∧
    resolveDir (str "src") ('/' :: str "x") = str "x" ∧
    resolveDir (str "src") (str "src" ++ '/' :: str "y") = str "src" ++ '/' :: str "y" :=
  ⟨C5_resolution_amended.1 (str "src") (by constructor <;> decide),
   C5_resolution_amended.2.2.1 (str "src") (by constructor <;> decide),
   C5_resolution_amended.2.2.2.1 (str "src") (str "x") (by constructor <;> decide),
   C5_resolution_amended.2.2.2.2 (str "src") (str "y") (by decide)
     (by constructor <;> decide)⟩

/-! ## C2: the dispatch boundary -/

theorem get_directory_failure_has_error (cl : GhClient) (st : ToolsState) (v : JVal) :
    (get_directory cl st v).1.success = false →
      ((get_directory cl st v).1.error).isSome = true := by
  cases hc : cl.getRepositoryStructure
      (if v.truthy then v.pyStr else []) with
  | error e => simp [get_directory, failRes, hc]
  | ok o => simp [get_directory, hc]

theorem read_file_failure_has_error (cl : GhClient) (st : ToolsState) (v : JVal) :
    (read_file cl st v).1.success = false →
      ((read_file cl st v).1.error).isSome = true := by
  cases v with
  | b b' => simp [read_file, failRes]
  | s fp =>
      cases hc : cl.getFileContent (resolveFile st.cursor fp) with
      | error e => simp [read_file, failRes, hc]
      | ok o =>
          cases o with
          | none => simp [read_file, failRes, hc]
          | some c => simp [read_file, hc]

theorem update_file_failure_has_error (cl : GhClient) (st : ToolsState) (fp c : JVal) :
    (update_file cl st fp c).1.success = false →
      ((update_file cl st fp c).1.error).isSome = true := by
  cases fp with
  | b b' => simp [update_file, failRes]
  | s fps =>
      cases hs : cl.getFileSha (resolveFile st.cursor fps) with
      | error e => simp [update_file, failRes, hs]
      | ok sha =>
          by_cases ht : shaTruthy sha = true
          · cases c with
            | b b' => simp [update_file, failRes, hs, ht]
            | s cs =>
                cases hw : cl.updateFileContent (resolveFile st.cursor fps) cs
                    (str "AI Dev: Update " ++ resolveFile st.cursor fps) sha with
                | error e => simp [update_file, failRes, hs, ht, hw]
                | ok b =>
                    cases b <;> simp [update_file, failRes, hs, ht, hw]
          · rw [Bool.not_eq_true] at ht
            simp [update_file, failRes, hs, ht]

theorem add_file_failure_has_error (cl : GhClient) (st : ToolsState) (fp c : JVal) :
    (add_file cl st fp c).1.success = false →
      ((add_file cl st fp c).1.error).isSome = true := by
  cases fp with
  | b b' => simp [add_file, failRes]
  | s fps =>
      cases hs : cl.getFileSha (resolveFile st.cursor fps) with
      | error e => simp [add_file, failRes, hs]
      | ok sha =>
          by_cases ht : shaTruthy sha = true
          · simp [add_file, failRes, hs, ht]
          · rw [Bool.not_eq_true] at ht
            cases c with
            | b b' => simp [add_file, failRes, hs, ht]
            | s cs =>
                cases hw : cl.updateFileContent (resolveFile st.cursor fps) cs
                    (str "AI Dev: Add " ++ resolveFile st.cursor fps) none with
                | error e => simp [add_file, failRes, hs, ht, hw]
                | ok b =>
                    cases b <;> simp [add_file, failRes, hs, ht, hw]

theorem make_dir_failure_has_error (cl : GhClient) (st : ToolsState) (dp : JVal) :
    (make_dir cl st dp).1.success = false →
      ((make_dir cl st dp).1.error).isSome = true := by
  cases dp with
  | b b' => simp [make_dir, failRes]
  | s dps =>
      cases hs : cl.getRepositoryStructure (resolveDir st.cursor dps) with
      | error e => simp [make_dir, failRes, hs]
      | ok o =>
          cases o with
          | some l => simp [make_dir, failRes, hs]
          | none =>
              cases hw : cl.updateFileContent
                  (resolveDir st.cursor dps ++ str "/.gitkeep") gitkeepContent
                  (str "AI Dev: Create directory " ++ resolveDir st.cursor dps) none with
              | error e => simp [make_dir, failRes, hs, hw]
              | ok b =>
                  cases b <;> simp [make_dir, failRes, hs, hw]

theorem change_dir_failure_has_error (cl : GhClient) (st : ToolsState) (dp : JVal) :
    (change_dir cl st dp).1.success = false →
      ((change_dir cl st dp).1.error).isSome = true := by
  cases dp with
  | b b' => simp [change_dir, failRes]
  | s dps =>
      cases hs : cl.getRepositoryStructure (resolveCd st.cursor dps) with
      | error e => simp [change_dir, failRes, hs]
      | ok o =>
          cases o with
          | some l => simp [change_dir, hs]
          | none => simp [change_dir, failRes, hs]

/-- Counterexample to claim C2 as stated: dispatch is not total over every
parameter mapping — `execute_tool("read_file", {})` evaluates
`parameters["file_path"]` and lets the resulting `KeyError` escape the
dispatch boundary (there is no handler in `execute_tool` or in the loop). -/
theorem C2_dispatch_counterexample :
    execute_tool clientNone ⟨[], str "main", []⟩ (str "read_file") [] =
      .error (.keyError (str "file_path")) := rfl

/-- Claim C2 as amended: for every tool name and every parameter mapping that
contains the keys the dispatcher itself subscripts, `execute_tool` returns a
ToolResult (no exception escapes), every failure carries `success=false`
together with an error string, and an unknown tool name yields the structured
unknown-tool failure with the state untouched; when a required key is
missing, however, a `KeyError` escapes the dispatch boundary. -/
theorem C2_dispatch_total_amended (cl : GhClient) (st : ToolsState) (toolName : Str)
    (params : List (Str × JVal))
    (hreq : ∀ k ∈ requiredKeys toolName, (lookupParam params k).isSome = true) :
    ∃ out : ToolResult × ToolsState × List WriteCall,
      execute_tool cl st toolName params = .ok out ∧
      (out.1.success = false → (out.1.error).isSome = true) ∧
      (toolName ∉ catalogNames →
        out.1 = { success := false, error := some (str "Unknown tool: " ++ toolName) } ∧
        out.2.1 = st ∧ out.2.2 = []) := by
  by_cases h1 : toolName = str "get_directory"
  · subst h1
    exact ⟨_, rfl, get_directory_failure_has_error cl st _,
      fun hn => absurd (by decide) hn⟩
  by_cases h2 : toolName = str "read_file"
  · subst h2
    have hlp := hreq (str "file_path") (by decide)
    cases hfp : lookupParam params (str "file_path") with
    | none => rw [hfp] at hlp; simp at hlp
    | some fp =>
        have he : execute_tool cl st (str "read_file") params =
            match lookupParam params (str "file_path") with
            | none => .error (.keyError (str "file_path"))
            | some fp => .ok (read_file cl st fp) := rfl
        rw [he, hfp]
        exact ⟨_, rfl, read_file_failure_has_error cl st fp,
          fun hn => absurd (by decide) hn⟩
  by_cases h3 : toolName = str "update_file"
  · subst h3
    have hlp := hreq (str "file_path") (by decide)
    have hlc := hreq (str "content") (by decide)
    cases hfp : lookupParam params (str "file_path") with
    | none => rw [hfp] at hlp; simp at hlp
    | some fp =>
        cases hct : lookupParam params (str "content") with
        | none => rw [hct] at hlc; simp at hlc
        | some c =>
            have he : execute_tool cl st (str "update_file") params =
                match lookupParam params (str "file_path") with
                | none => .error (.keyError (str "file_path"))
                | some fp =>
                    match lookupParam params (str "content") with
                    | none => .error (.keyError (str "content"))
                    | some c => .ok (update_file cl st fp c) := rfl
            rw [he, hfp, hct]
            exact ⟨_, rfl, update_file_failure_has_error cl st fp c,
              fun hn => absurd (by decide) hn⟩
  by_cases h4 : toolName = str "add_file"
  · subst h4
    have hlp := hreq (str "file_path") (by decide)
    have hlc := hreq (str "content") (by decide)
    cases hfp : lookupParam params (str "file_path") with
    | none => rw [hfp] at hlp; simp at hlp
    | some fp =>
        cases hct : lookupParam params (str "content") with
        | none => rw [hct] at hlc; simp at hlc
        | some c =>
            have he : execute_tool cl st (str "add_file") params =
                match lookupParam params (str "file_path") with
                | none => .error (.keyError (str "file_path"))
                | some fp =>
                    match lookupParam params (str "content") with
                    | none => .error (.keyError (str "content"))
                    | some c => .ok (add_file cl st fp c) := rfl
            rw [he, hfp, hct]
            exact ⟨_, rfl, add_file_failure_has_error cl st fp c,
              fun hn => absurd (by decide) hn⟩
  by_cases h5 : toolName = str "make_dir"
  · subst h5
    have hlp := hreq (str "directory_path") (by decide)
    cases hdp : lookupParam params (str "directory_path") with
    | none => rw [hdp] at hlp; simp at hlp
    | some dp =>
        have he : execute_tool cl st (str "make_dir") params =
            match lookupParam params (str "directory_path") with
            | none => .error (.keyError (str "directory_path"))
            | some dp => .ok (make_dir cl st dp) := rfl
        rw [he, hdp]
        exact ⟨_, rfl, make_dir_failure_has_error cl st dp,
          fun hn => absurd (by decide) hn⟩
  by_cases h6 : toolName = str "change_dir"
  · subst h6
    have hlp := hreq (str "directory_path") (by decide)
    cases hdp : lookupParam params (str "directory_path") with
    | none => rw [hdp] at hlp; simp at hlp
    | some dp =>
        have he : execute_tool cl st (str "change_dir") params =
            match lookupParam params (str "directory_path") with
            | none => .error (.keyError (str "directory_path"))
            | some dp => .ok (change_dir cl st dp) := rfl
        rw [he, hdp]
        exact ⟨_, rfl, change_dir_failure_has_error cl st dp,
          fun hn => absurd (by decide) hn⟩
  by_cases h7 : toolName = str "finish_task"
  · subst h7
    have hlp := hreq (str "summary") (by decide)
    cases hsm : lookupParam params (str "summary") with
    | none => rw [hsm] at hlp; simp at hlp
    | some s =>
        have he : execute_tool cl st (str "finish_task") params =
            match lookupParam params (str "summary") with
            | none => .error (.keyError (str "summary"))
            | some s =>
                .ok (finish_task st s ((lookupParam params (str "success")).getD (.b true))) := rfl
        rw [he, hsm]
        refine ⟨_, rfl, ?_, fun hn => absurd (by decide) hn⟩
        intro hf
        simp [finish_task] at hf
  · have he : execute_tool cl st toolName params =
        if toolName = str "get_directory" then
          .ok (get_directory cl st ((lookupParam params (str "directory_path")).getD (.s [])))
        else if toolName = str "read_file" then
          match lookupParam params (str "file_path") with
          | none => .error (.keyError (str "file_path"))
          | some fp => .ok (read_file cl st fp)
        else if toolName = str "update_file" then
          match lookupParam params (str "file_path") with
          | none => .error (.keyError (str "file_path"))
          | some fp =>
              match lookupParam params (str "content") with
              | none => .error (.keyError (str "content"))
              | some c => .ok (update_file cl st fp c)
        else if toolName = str "add_file" then
          match lookupParam params (str "file_path") with
          | none => .error (.keyError (str "file_path"))
          | some fp =>
              match lookupParam params (str "content") with
              | none => .error (.keyError (str "content"))
              | some c => .ok (add_file cl st fp c)
        else if toolName = str "make_dir" then
          match lookupParam params (str "directory_path") with
          | none => .error (.keyError (str "directory_path"))
          | some dp => .ok (make_dir cl st dp)
        else if toolName = str "change_dir" then
          match lookupParam params (str "directory_path") with
          | none => .error (.keyError (str "directory_path"))
          | some dp => .ok (change_dir cl st dp)
        else if toolName = str "finish_task" then
          match lookupParam params (str "summary") with
          | none => .error (.keyError (str "summary"))
          | some s =>
              .ok (finish_task st s ((lookupParam params (str "success")).getD (.b true)))
        else
          .ok ({ success := false, error := some (str "Unknown tool: " ++ toolName) }, st, []) := rfl
    rw [he, if_neg h1, if_neg h2, if_neg h3, if_neg h4, if_neg h5, if_neg h6, if_neg h7]
    exact ⟨_, rfl, by intro _; rfl, fun _ => ⟨rfl, rfl, rfl⟩⟩

/-- Witness for C2 as amended: a dispatch with all required keys present, and
an unknown tool name. -/
theorem C2_dispatch_total_amended_witness :
    (∃ out : ToolResult × ToolsState × List WriteCall,
      execute_tool clientNone ⟨[], str "main", []⟩ (str "read_file")
        [(str "file_path", .s (str "a.py"))] = .ok out) ∧
    (∃ out : ToolResult × ToolsState × List WriteCall,
      execute_tool clientNone ⟨[], str "main", []⟩ (str "frobnicate") [] = .ok out ∧
        out.1 = { success := false, error := some (str "Unknown tool: " ++ str "frobnicate") }) := by
  constructor
  · obtain ⟨out, he, -, -⟩ :=
      C2_dispatch_total_amended clientNone ⟨[], str "main", []⟩ (str "read_file")
        [(str "file_path", .s (str "a.py"))] (by decide)
    exact ⟨out, he⟩
  · obtain ⟨out, he, -, hu⟩ :=
      C2_dispatch_total_amended clientNone ⟨[], str "main", []⟩ (str "frobnicate")
        [] (by decide)
    exact ⟨out, he, (hu (by decide)).1⟩

/-! ## C6: create/update guards -/

/-- Claim C6: `add_file` fails and performs no write whenever the prior
existence check returns a (truthy) SHA for the path, and `update_file` fails
and performs no write whenever no (truthy) SHA can be obtained; in both cases
the state — in particular the mutation log — is untouched, so neither
silently succeeds and creation and update stay mutually exclusive. -/
theorem C6_create_update_guards :
    (∀ cl st fp c s, cl.getFileSha (resolveFile st.cursor fp) = .ok (some s) →
      s ≠ [] →
      (add_file cl st (.s fp) c).1.success = false ∧
      (add_file cl st (.s fp) c).2.1 = st ∧
      (add_file cl st (.s fp) c).2.2 = []) ∧
    (∀ cl st fp c sha, cl.getFileSha (resolveFile st.cursor fp) = .ok sha →
      shaTruthy sha = false →
      (update_file cl st (.s fp) c).1.success = false ∧
      (update_file cl st (.s fp) c).2.1 = st ∧
      (update_file cl st (.s fp) c).2.2 = []) := by
  constructor
  · intro cl st fp c s hs hne
    have ht : shaTruthy (some s) = true := by
      simp [shaTruthy, hne]
    simp [add_file, hs, ht, failRes]
  · intro cl st fp c sha hs ht
    simp [update_file, hs, ht, failRes]

/-- Witness for C6: a collaborator reporting an existing SHA rejects the
create, and one reporting no SHA rejects the update. -/
theorem C6_create_update_guards_witness :
    ((add_file (realClient ⟨fun _ => none, fun _ => some (str "abc"),
        fun _ => none, fun _ => true⟩) ⟨[], str "b", []⟩
        (.s (str "f.py")) (.s (str "x"))).1.success = false ∧
      (add_file (realClient ⟨fun _ => none, fun _ => some (str "abc"),
        fun _ => none, fun _ => true⟩) ⟨[], str "b", []⟩
        (.s (str "f.py")) (.s (str "x"))).2.1 = ⟨[], str "b", []⟩ ∧
      (add_file (realClient ⟨fun _ => none, fun _ => some (str "abc"),
        fun _ => none, fun _ => true⟩) ⟨[], str "b", []⟩
        (.s (str "f.py")) (.s (str "x"))).2.2 = []) ∧
    ((update_file (realClient emptyWorld) ⟨[], str "b", []⟩
        (.s (str "f.py")) (.s (str "x"))).1.success = false ∧
      (update_file (realClient emptyWorld) ⟨[], str "b", []⟩
        (.s (str "f.py")) (.s (str "x"))).2.1 = ⟨[], str "b", []⟩ ∧
      (update_file (realClient emptyWorld) ⟨[], str "b", []⟩
        (.s (str "f.py")) (.s (str "x"))).2.2 = []) :=
  ⟨C6_create_update_guards.1 _ ⟨[], str "b", []⟩ (str "f.py") (.s (str "x"))
      (str "abc") rfl (by decide),
   C6_create_update_guards.2 _ ⟨[], str "b", []⟩ (str "f.py") (.s (str "x"))
      none rfl (by decide)⟩

/-! ## C3: the `change_dir` existence check against the production client -/

/-- Claim C3 names the intended behaviour — `change_dir` commits the cursor
only when the target is listable, absence of a listing signalling a missing
directory — and the module's own unit-test mock ("returns None for
non-existent directories", `tests/test_make_dir.py`) and the code comment
"Verify the directory exists" agree.  But the production
`GitHubClient.get_repository_structure` catches the 404 of a missing
directory and returns `[]`, never `None`, so composed with it `change_dir`'s
`is not None` check always passes: at a world with no paths at all,
`change_dir("ghost")` reports success and moves the cursor to the
non-existent directory.  Against a collaborator honouring the `None`
contract (last two conjuncts) the claimed behaviour does hold. -/
theorem C3_change_dir_missing_dir_bug :
    GitHubClient.get_repository_structure emptyWorld (str "ghost") = [] ∧
    (change_dir (realClient emptyWorld) ⟨[], str "main", []⟩
      (.s (str "ghost"))).1.success = true ∧
    (change_dir (realClient emptyWorld) ⟨[], str "main", []⟩
      (.s (str "ghost"))).2.1.cursor = str "ghost" ∧
    (change_dir clientNone ⟨[], str "main", []⟩ (.s (str "ghost"))).1.success = false ∧
    (change_dir clientNone ⟨[], str "main", []⟩ (.s (str "ghost"))).2.1.cursor = [] :=
  ⟨rfl, rfl, rfl, rfl, rfl⟩

/-! ## C8: `make_dir` -/

/-- Counterexample to claim C8 as stated: the placeholder marker is created
at `path/.gitkeep`, not at `path/.keep` — at a collaborator answering `None`
for the new directory, the single write of `make_dir("docs")` goes to
`docs/.gitkeep` and no write goes to `docs/.keep`. -/
theorem C8_marker_name_counterexample :
    ((make_dir clientNone ⟨[], str "b", []⟩ (.s (str "docs"))).2.2.map WriteCall.path =
      [str "docs/.gitkeep"]) ∧
    ¬ (str "docs/.keep" ∈
      (make_dir clientNone ⟨[], str "b", []⟩ (.s (str "docs"))).2.2.map WriteCall.path) ∧
    (make_dir clientNone ⟨[], str "b", []⟩ (.s (str "docs"))).1.success = true :=
  ⟨rfl, by decide, rfl⟩

/-- Claim C8 as amended: `make_dir` creates the placeholder marker at
`path/.gitkeep` with the explanatory content, through the same no-fingerprint
create call as `write` (a single `update_file_content` with SHA `None`), its
success mirroring the write's outcome; and it fails, performing no write and
leaving the state untouched, whenever the collaborator returns any listing
(even an empty one) for the path.  (With the production client a missing
directory also yields a listing — see C3.) -/
theorem C8_make_dir_amended :
    (∀ cl st p, cl.getRepositoryStructure (resolveDir st.cursor p) = .ok none →
      (make_dir cl st (.s p)).2.2 =
        [⟨resolveDir st.cursor p ++ str "/.gitkeep", gitkeepContent,
          str "AI Dev: Create directory " ++ resolveDir st.cursor p, none⟩] ∧
      (∀ b, cl.updateFileContent (resolveDir st.cursor p ++ str "/.gitkeep")
          gitkeepContent
          (str "AI Dev: Create directory " ++ resolveDir st.cursor p) none = .ok b →
        (make_dir cl st (.s p)).1.success = b ∧
        (make_dir cl st (.s p)).1.gitkeep_file =
          (if b then some (resolveDir st.cursor p ++ str "/.gitkeep") else none))) ∧
    (∀ cl st p l, cl.getRepositoryStructure (resolveDir st.cursor p) = .ok (some l) →
      (make_dir cl st (.s p)).1.success = false ∧
      (make_dir cl st (.s p)).2.1 = st ∧
      (make_dir cl st (.s p)).2.2 = []) := by
  constructor
  · intro cl st p hs
    constructor
    · cases hw : cl.updateFileContent (resolveDir st.cursor p ++ str "/.gitkeep")
          gitkeepContent
          (str "AI Dev: Create directory " ++ resolveDir st.cursor p) none with
      | error e => simp [make_dir, hs, hw, failRes]
      | ok b => cases b <;> simp [make_dir, hs, hw, failRes]
    · intro b hw
      cases b <;> simp [make_dir, hs, hw, failRes]
  · intro cl st p l hs
    simp [make_dir, hs, failRes]

/-- Witness for C8 as amended at `make_dir("docs")`. -/
theorem C8_make_dir_amended_witness :
    ((make_dir clientNone ⟨[], str "b", []⟩ (.s (str "docs"))).2.2 =
      [⟨str "docs" ++ str "/.gitkeep", gitkeepContent,
        str "AI Dev: Create directory " ++ str "docs", none⟩]) ∧
    (make_dir (realClient ⟨fun _ => some [], fun _ => none, fun _ => none,
        fun _ => true⟩) ⟨[], str "b", []⟩ (.s (str "docs"))).1.success = false := by
  constructor
  · have h := (C8_make_dir_amended.1 clientNone ⟨[], str "b", []⟩ (str "docs") rfl).1
    rw [h]
    rfl
  · exact (C8_make_dir_amended.2 (realClient ⟨fun _ => some [], fun _ => none,
      fun _ => none, fun _ => true⟩) ⟨[], str "b", []⟩ (str "docs") [] rfl).1

/-! ## Occurrence-counting lemmas for C9 -/

theorem containsSub_nil_pattern (s : Str) : containsSub s [] = true := by
  cases s <;> simp [containsSub, List.isPrefixOf]

theorem containsSub_mid (a t b : Str) : containsSub (a ++ (t ++ b)) t = true := by
  induction a with
  | nil =>
      cases t with
      | nil => simpa using containsSub_nil_pattern b
      | cons c t' =>
          have h : (c :: t').isPrefixOf ((c :: t') ++ b) = true :=
            self_isPrefixOf_append _ _
          simp only [List.cons_append] at h
          simp [containsSub, h]
  | cons c a' ih =>
      simp [containsSub, ih]

theorem countOcc_nil (t : Str) (h : t ≠ []) : countOcc [] t = 0 := by
  simp [countOcc, h]

theorem countOcc_short (s t : Str) (h : s.length < t.length) : countOcc s t = 0 := by
  induction s with
  | nil =>
      have : t ≠ [] := by
        intro he; rw [he] at h; simp at h
      exact countOcc_nil t this
  | cons c s' ih =>
      have hp : t.isPrefixOf (c :: s') = false := by
        cases hq : t.isPrefixOf (c :: s')
        · rfl
        · have := (List.isPrefixOf_iff_prefix.1 hq).length_le
          omega
      have : s'.length < t.length := by
        simp only [List.length_cons] at h; omega
      simp [countOcc, hp, ih this]

theorem countOcc_self (t : Str) (h : t ≠ []) : countOcc t t = 1 := by
  cases t with
  | nil => exact absurd rfl h
  | cons c t' =>
      have hp : (c :: t').isPrefixOf (c :: t') = true :=
        List.isPrefixOf_iff_prefix.2 (List.prefix_refl _)
      have hs : countOcc t' (c :: t') = 0 :=
        countOcc_short t' (c :: t') (by simp)
      simp [countOcc, hp, hs]

theorem isPrefixOf_append_sep (Y b t : Str) (_hne : t ≠ []) (hnl : '\n' ∉ t) :
    t.isPrefixOf (Y ++ '\n' :: b) = t.isPrefixOf Y := by
  cases hq : t.isPrefixOf Y
  · cases hp : t.isPrefixOf (Y ++ '\n' :: b)
    · rfl
    · exfalso
      have hpre : t <+: Y ++ '\n' :: b := List.isPrefixOf_iff_prefix.1 hp
      by_cases hl : t.length ≤ Y.length
      · have : t <+: Y := by
          rw [List.prefix_iff_eq_take] at hpre ⊢
          rwa [List.take_append_of_le_length hl] at hpre
        rw [List.isPrefixOf_iff_prefix.2 this] at hq
        exact absurd hq (by decide)
      · push_neg at hl
        have hY : Y <+: t :=
          List.prefix_of_prefix_length_le (List.prefix_append Y ('\n' :: b)) hpre
            (Nat.le_of_lt hl)
        obtain ⟨u, hu⟩ := hY
        have hub : u <+: '\n' :: b := by
          have : Y ++ u <+: Y ++ '\n' :: b := by rw [hu]; exact hpre
          exact (List.prefix_append_right_inj Y).1 this
        cases u with
        | nil =>
            rw [← hu] at hl; simp at hl
        | cons u₀ u' =>
            have h0 : u₀ = '\n' := (List.cons_prefix_cons.1 hub).1
            apply hnl
            rw [← hu, h0]
            exact List.mem_append_right Y (List.mem_cons_self _ _)
  · have hpre : t <+: Y ++ '\n' :: b :=
      (List.isPrefixOf_iff_prefix.1 hq).trans (List.prefix_append Y ('\n' :: b))
    rw [List.isPrefixOf_iff_prefix.2 hpre]

theorem countOcc_append_sep (a b t : Str) (hne : t ≠ []) (hnl : '\n' ∉ t) :
    countOcc (a ++ '\n' :: b) t = countOcc a t + countOcc b t := by
  induction a with
  | nil =>
      obtain ⟨t₀, t', rfl⟩ : ∃ t₀ t', t = t₀ :: t' := by
        cases t with
        | nil => exact absurd rfl hne
        | cons t₀ t' => exact ⟨t₀, t', rfl⟩
      have h0 : t₀ ≠ '\n' := fun he => hnl (he ▸ List.mem_cons_self _ _)
      have hp : (t₀ :: t').isPrefixOf ('\n' :: b) = false := by
        cases hq : (t₀ :: t').isPrefixOf ('\n' :: b)
        · rfl
        · exact absurd (List.cons_prefix_cons.1 (List.isPrefixOf_iff_prefix.1 hq)).1 h0
      simp [countOcc, hp, countOcc_nil _ hne]
  | cons c a' ih =>
      have hp := isPrefixOf_append_sep (c :: a') b t hne hnl
      simp only [List.cons_append] at hp ⊢
      rw [countOcc, countOcc, hp, ih]
      omega

/-! ## C9: pull-request body rendering -/

/-- Counterexample to claim C9 as stated: with an empty mutation log the body
contains the Markdown sentinel `**Files Changed:** None` but not the plain
literal `Files Changed: None` — the claimed literal never occurs because the
Markdown bold markers sit between the colon and the space. -/
theorem C9_pr_body_counterexample :
    containsSub (_create_pr_description (str "o") (str "b") 1 [] [])
      (str "Files Changed: None") = false ∧
    containsSub (_create_pr_description (str "o") (str "b") 1 [] [])
      (str "**Files Changed:** None") = true := by
  constructor <;> decide

/-- Claim C9 as amended: with an empty mutation log the body contains the
literal `**Files Changed:** None`; with an empty summary string the summary
section contributes nothing at all (no `Summary` heading is rendered); and a
non-empty summary that contains no newline and occurs in no other part of
the body appears exactly once. -/
theorem C9_pr_body_amended :
    (∀ obj br it summary, containsSub (_create_pr_description obj br it summary [])
      (str "**Files Changed:** None") = true) ∧
    (∀ obj br it files, _create_pr_description obj br it [] files =
      prBodyPre obj br it files ++ prBodyTail) ∧
    (∀ obj br it files summary, summary ≠ [] → '\n' ∉ summary →
      countOcc (prBodyPre obj br it files ++ str "\n**Summary:**") summary = 0 →
      countOcc (str "Please review the changes before merging.") summary = 0 →
      countOcc (_create_pr_description obj br it summary files) summary = 1) := by
  refine ⟨?_, ?_, ?_⟩
  · intro obj br it summary
    have hd : _create_pr_description obj br it summary [] =
        (str "This pull request was created by the AI Dev.\n\n**Objective:** " ++
          obj ++ (str "\n\n**Branch:** " ++ (br ++ (str "\n**Iterations:** " ++
          (natStr it ++ str "\n\n"))))) ++
        (str "**Files Changed:** None" ++
          (str "\n" ++ (summarySection summary ++ prBodyTail))) := by
      unfold _create_pr_description prBodyPre fileChangesSection
      simp only [List.isEmpty_nil, if_true, List.append_assoc]
      rfl
    rw [hd]
    exact containsSub_mid _ _ _
  · intro obj br it files
    simp [_create_pr_description, summarySection]
  · intro obj br it files summary hne hnl hpre hpost
    have hd : _create_pr_description obj br it summary files =
        (prBodyPre obj br it files ++ str "\n**Summary:**") ++
          '\n' :: (summary ++ '\n' :: ('\n' :: str "Please review the changes before merging.")) := by
      unfold _create_pr_description summarySection prBodyTail
      rw [if_neg (by simpa using hne)]
      rw [show str "\n**Summary:**\n" = str "\n**Summary:**" ++ '\n' :: [] from rfl,
        show str "\nPlease review the changes before merging." =
          '\n' :: str "Please review the changes before merging." from rfl]
      simp only [List.append_assoc]
      rfl
    rw [hd]
    rw [countOcc_append_sep _ _ _ hne hnl, hpre]
    rw [countOcc_append_sep summary ('\n' :: str "Please review the changes before merging.")
      _ hne hnl]
    rw [show ('\n' :: str "Please review the changes before merging.") =
      [] ++ '\n' :: str "Please review the changes before merging." from rfl]
    rw [countOcc_append_sep [] _ _ hne hnl, countOcc_nil _ hne, hpost,
      countOcc_self summary hne]

set_option maxRecDepth 8192 in
/-- Witness for C9 as amended at a concrete body. -/
theorem C9_pr_body_amended_witness :
    countOcc (_create_pr_description (str "o") (str "b") 1 (str "SUM") [])
      (str "SUM") = 1 :=
  C9_pr_body_amended.2.2 (str "o") (str "b") 1 [] (str "SUM")
    (by decide) (by decide) (by decide) (by decide)

/-! ## C7: the mutation log -/

theorem get_directory_state (cl : GhClient) (st : ToolsState) (v : JVal) :
    (get_directory cl st v).2.1 = st := by
  cases hc : cl.getRepositoryStructure (if v.truthy then v.pyStr else []) with
  | error e => simp [get_directory, hc]
  | ok o => simp [get_directory, hc]

theorem read_file_state (cl : GhClient) (st : ToolsState) (v : JVal) :
    (read_file cl st v).2.1 = st := by
  cases v with
  | b b' => rfl
  | s fp =>
      cases hc : cl.getFileContent (resolveFile st.cursor fp) with
      | error e => simp [read_file, hc]
      | ok o => cases o <;> simp [read_file, hc]

theorem change_dir_state (cl : GhClient) (st : ToolsState) (v : JVal) :
    (change_dir cl st v).2.1.branch = st.branch ∧
    (change_dir cl st v).2.1.modified = st.modified := by
  cases v with
  | b b' => exact ⟨rfl, rfl⟩
  | s dp =>
      cases hc : cl.getRepositoryStructure (resolveCd st.cursor dp) with
      | error e => simp [change_dir, hc]
      | ok o => cases o <;> simp [change_dir, hc]

theorem update_file_modified (cl : GhClient) (st : ToolsState) (fp c : JVal) :
    (update_file cl st fp c).2.1.branch = st.branch ∧
    ((update_file cl st fp c).1.success = true →
      ∃ rec : FileChangeRecord, (update_file cl st fp c).2.1.modified =
        st.modified ++ [rec] ∧ rec.action = str "updated" ∧ rec.branch = st.branch) ∧
    ((update_file cl st fp c).1.success = false →
      (update_file cl st fp c).2.1.modified = st.modified) := by
  cases fp with
  | b b' => exact ⟨rfl, by intro h; simp [update_file, failRes] at h, fun _ => rfl⟩
  | s fps =>
      cases hs : cl.getFileSha (resolveFile st.cursor fps) with
      | error e => simp [update_file, hs, failRes]
      | ok sha =>
          by_cases ht : shaTruthy sha = true
          · cases c with
            | b b' => simp [update_file, hs, ht, failRes]
            | s cs =>
                cases hw : cl.updateFileContent (resolveFile st.cursor fps) cs
                    (str "AI Dev: Update " ++ resolveFile st.cursor fps) sha with
                | error e => simp [update_file, hs, ht, hw, failRes]
                | ok b =>
                    cases b
                    · simp [update_file, hs, ht, hw, failRes]
                    · refine ⟨by simp [update_file, hs, ht, hw], ?_, ?_⟩
                      · intro _
                        exact ⟨⟨resolveFile st.cursor fps, str "updated", st.branch⟩,
                          by simp [update_file, hs, ht, hw], rfl, rfl⟩
                      · intro h
                        exact absurd h (by simp [update_file, hs, ht, hw])
          · rw [Bool.not_eq_true] at ht
            simp [update_file, hs, ht, failRes]

theorem add_file_modified (cl : GhClient) (st : ToolsState) (fp c : JVal) :
    (add_file cl st fp c).2.1.branch = st.branch ∧
    ((add_file cl st fp c).1.success = true →
      ∃ rec : FileChangeRecord, (add_file cl st fp c).2.1.modified =
        st.modified ++ [rec] ∧ rec.action = str "created" ∧ rec.branch = st.branch) ∧
    ((add_file cl st fp c).1.success = false →
      (add_file cl st fp c).2.1.modified = st.modified) := by
  cases fp with
  | b b' => exact ⟨rfl, by intro h; simp [add_file, failRes] at h, fun _ => rfl⟩
  | s fps =>
      cases hs : cl.getFileSha (resolveFile st.cursor fps) with
      | error e => simp [add_file, hs, failRes]
      | ok sha =>
          by_cases ht : shaTruthy sha = true
          · simp [add_file, hs, ht, failRes]
          · rw [Bool.not_eq_true] at ht
            cases c with
            | b b' => simp [add_file, hs, ht, failRes]
            | s cs =>
                cases hw : cl.updateFileContent (resolveFile st.cursor fps) cs
                    (str "AI Dev: Add " ++ resolveFile st.cursor fps) none with
                | error e => simp [add_file, hs, ht, hw, failRes]
                | ok b =>
                    cases b
                    · simp [add_file, hs, ht, hw, failRes]
                    · refine ⟨by simp [add_file, hs, ht, hw], ?_, ?_⟩
                      · intro _
                        exact ⟨⟨resolveFile st.cursor fps, str "created", st.branch⟩,
                          by simp [add_file, hs, ht, hw], rfl, rfl⟩
                      · intro h
                        exact absurd h (by simp [add_file, hs, ht, hw])

theorem make_dir_modified (cl : GhClient) (st : ToolsState) (v : JVal) :
    (make_dir cl st v).2.1.branch = st.branch ∧
    ((make_dir cl st v).1.success = true →
      ∃ rec : FileChangeRecord, (make_dir cl st v).2.1.modified =
        st.modified ++ [rec] ∧ rec.action = str "created" ∧ rec.branch = st.branch) ∧
    ((make_dir cl st v).1.success = false →
      (make_dir cl st v).2.1.modified = st.modified) := by
  cases v with
  | b b' => exact ⟨rfl, by intro h; simp [make_dir, failRes] at h, fun _ => rfl⟩
  | s dp =>
      cases hs : cl.getRepositoryStructure (resolveDir st.cursor dp) with
      | error e => simp [make_dir, hs, failRes]
      | ok o =>
          cases o with
          | some l => simp [make_dir, hs, failRes]
          | none =>
              cases hw : cl.updateFileContent (resolveDir st.cursor dp ++ str "/.gitkeep")
                  gitkeepContent
                  (str "AI Dev: Create directory " ++ resolveDir st.cursor dp) none with
              | error e => simp [make_dir, hs, hw, failRes]
              | ok b =>
                  cases b
                  · simp [make_dir, hs, hw, failRes]
                  · refine ⟨by simp [make_dir, hs, hw], ?_, ?_⟩
                    · intro _
                      exact ⟨⟨resolveDir st.cursor dp ++ str "/.gitkeep",
                        str "created", st.branch⟩,
                        by simp [make_dir, hs, hw], rfl, rfl⟩
                    · intro h
                      exact absurd h (by simp [make_dir, hs, hw])

/-- Per-dispatch state change: a successful mutating tool call appends
exactly one record (with the right action and branch), every other outcome
leaves the log untouched, and no tool call ever changes the branch. -/
theorem execute_tool_modified_spec (cl : GhClient) (st : ToolsState) (toolName : Str)
    (params : List (Str × JVal)) (out : ToolResult × ToolsState × List WriteCall)
    (h : execute_tool cl st toolName params = .ok out) :
    out.2.1.branch = st.branch ∧
    ((mutatingNames.contains toolName && out.1.success) = true →
      ∃ rec : FileChangeRecord, out.2.1.modified = st.modified ++ [rec] ∧
        (rec.action = str "created" ∨ rec.action = str "updated") ∧
        rec.branch = st.branch) ∧
    ((mutatingNames.contains toolName && out.1.success) = false →
      out.2.1.modified = st.modified) := by
  by_cases h1 : toolName = str "get_directory"
  · subst h1
    have he := Except.ok.inj h
    subst he
    rw [get_directory_state cl st _]
    refine ⟨rfl, ?_, fun _ => rfl⟩
    intro hc
    rw [show mutatingNames.contains (str "get_directory") = false from rfl,
      Bool.false_and] at hc
    exact absurd hc (by decide)
  by_cases h2 : toolName = str "read_file"
  · subst h2
    cases hfp : lookupParam params (str "file_path") with
    | none =>
        rw [show execute_tool cl st (str "read_file") params =
          match lookupParam params (str "file_path") with
          | none => .error (.keyError (str "file_path"))
          | some fp => .ok (read_file cl st fp) from rfl, hfp] at h
        exact absurd h (by simp)
    | some fp =>
        rw [show execute_tool cl st (str "read_file") params =
          match lookupParam params (str "file_path") with
          | none => .error (.keyError (str "file_path"))
          | some fp => .ok (read_file cl st fp) from rfl, hfp] at h
        have he := Except.ok.inj h
        subst he
        rw [read_file_state cl st fp]
        refine ⟨rfl, ?_, fun _ => rfl⟩
        intro hc
        rw [show mutatingNames.contains (str "read_file") = false from rfl,
          Bool.false_and] at hc
        exact absurd hc (by decide)
  by_cases h3 : toolName = str "update_file"
  · subst h3
    cases hfp : lookupParam params (str "file_path") with
    | none =>
        rw [show execute_tool cl st (str "update_file") params =
          match lookupParam params (str "file_path") with
          | none => .error (.keyError (str "file_path"))
          | some fp =>
              match lookupParam params (str "content") with
              | none => .error (.keyError (str "content"))
              | some c => .ok (update_file cl st fp c) from rfl, hfp] at h
        exact absurd h (by simp)
    | some fp =>
        cases hct : lookupParam params (str "content") with
        | none =>
            rw [show execute_tool cl st (str "update_file") params =
              match lookupParam params (str "file_path") with
              | none => .error (.keyError (str "file_path"))
              | some fp =>
                  match lookupParam params (str "content") with
                  | none => .error (.keyError (str "content"))
                  | some c => .ok (update_file cl st fp c) from rfl, hfp, hct] at h
            exact absurd h (by simp)
        | some c =>
            rw [show execute_tool cl st (str "update_file") params =
              match lookupParam params (str "file_path") with
              | none => .error (.keyError (str "file_path"))
              | some fp =>
                  match lookupParam params (str "content") with
                  | none => .error (.keyError (str "content"))
                  | some c => .ok (update_file cl st fp c) from rfl, hfp, hct] at h
            have he := Except.ok.inj h
            subst he
            obtain ⟨hbr, hsucc, hfail⟩ := update_file_modified cl st fp c
            refine ⟨hbr, ?_, ?_⟩
            · intro hc
              rw [show (mutatingNames.contains (str "update_file") &&
                  (update_file cl st fp c).1.success) =
                (update_file cl st fp c).1.success by
                  rw [show mutatingNames.contains (str "update_file") = true from rfl,
                    Bool.true_and]] at hc
              obtain ⟨rec, hr, ha, hb⟩ := hsucc hc
              exact ⟨rec, hr, Or.inr ha, hb⟩
            · intro hc
              rw [show (mutatingNames.contains (str "update_file") &&
                  (update_file cl st fp c).1.success) =
                (update_file cl st fp c).1.success by
                  rw [show mutatingNames.contains (str "update_file") = true from rfl,
                    Bool.true_and]] at hc
              exact hfail hc
  by_cases h4 : toolName = str "add_file"
  · subst h4
    cases hfp : lookupParam params (str "file_path") with
    | none =>
        rw [show execute_tool cl st (str "add_file") params =
          match lookupParam params (str "file_path") with
          | none => .error (.keyError (str "file_path"))
          | some fp =>
              match lookupParam params (str "content") with
              | none => .error (.keyError (str "content"))
              | some c => .ok (add_file cl st fp c) from rfl, hfp] at h
        exact absurd h (by simp)
    | some fp =>
        cases hct : lookupParam params (str "content") with
        | none =>
            rw [show execute_tool cl st (str "add_file") params =
              match lookupParam params (str "file_path") with
              | none => .error (.keyError (str "file_path"))
              | some fp =>
                  match lookupParam params (str "content") with
                  | none => .error (.keyError (str "content"))
                  | some c => .ok (add_file cl st fp c) from rfl, hfp, hct] at h
            exact absurd h (by simp)
        | some c =>
            rw [show execute_tool cl st (str "add_file") params =
              match lookupParam params (str "file_path") with
              | none => .error (.keyError (str "file_path"))
              | some fp =>
                  match lookupParam params (str "content") with
                  | none => .error (.keyError (str "content"))
                  | some c => .ok (add_file cl st fp c) from rfl, hfp, hct] at h
            have he := Except.ok.inj h
            subst he
            obtain ⟨hbr, hsucc, hfail⟩ := add_file_modified cl st fp c
            refine ⟨hbr, ?_, ?_⟩
            · intro hc
              rw [show (mutatingNames.contains (str "add_file") &&
                  (add_file cl st fp c).1.success) =
                (add_file cl st fp c).1.success by
                  rw [show mutatingNames.contains (str "add_file") = true from rfl,
                    Bool.true_and]] at hc
              obtain ⟨rec, hr, ha, hb⟩ := hsucc hc
              exact ⟨rec, hr, Or.inl ha, hb⟩
            · intro hc
              rw [show (mutatingNames.contains (str "add_file") &&
                  (add_file cl st fp c).1.success) =
                (add_file cl st fp c).1.success by
                  rw [show mutatingNames.contains (str "add_file") = true from rfl,
                    Bool.true_and]] at hc
              exact hfail hc
  by_cases h5 : toolName = str "make_dir"
  · subst h5
    cases hdp : lookupParam params (str "directory_path") with
    | none =>
        rw [show execute_tool cl st (str "make_dir") params =
          match lookupParam params (str "directory_path") with
          | none => .error (.keyError (str "directory_path"))
          | some dp => .ok (make_dir cl st dp) from rfl, hdp] at h
        exact absurd h (by simp)
    | some dp =>
        rw [show execute_tool cl st (str "make_dir") params =
          match lookupParam params (str "directory_path") with
          | none => .error (.keyError (str "directory_path"))
          | some dp => .ok (make_dir cl st dp) from rfl, hdp] at h
        have he := Except.ok.inj h
        subst he
        obtain ⟨hbr, hsucc, hfail⟩ := make_dir_modified cl st dp
        refine ⟨hbr, ?_, ?_⟩
        · intro hc
          rw [show (mutatingNames.contains (str "make_dir") &&
              (make_dir cl st dp).1.success) = (make_dir cl st dp).1.success by
                rw [show mutatingNames.contains (str "make_dir") = true from rfl,
                  Bool.true_and]] at hc
          obtain ⟨rec, hr, ha, hb⟩ := hsucc hc
          exact ⟨rec, hr, Or.inl ha, hb⟩
        · intro hc
          rw [show (mutatingNames.contains (str "make_dir") &&
              (make_dir cl st dp).1.success) = (make_dir cl st dp).1.success by
                rw [show mutatingNames.contains (str "make_dir") = true from rfl,
                  Bool.true_and]] at hc
          exact hfail hc
  by_cases h6 : toolName = str "change_dir"
  · subst h6
    cases hdp : lookupParam params (str "directory_path") with
    | none =>
        rw [show execute_tool cl st (str "change_dir") params =
          match lookupParam params (str "directory_path") with
          | none => .error (.keyError (str "directory_path"))
          | some dp => .ok (change_dir cl st dp) from rfl, hdp] at h
        exact absurd h (by simp)
    | some dp =>
        rw [show execute_tool cl st (str "change_dir") params =
          match lookupParam params (str "directory_path") with
          | none => .error (.keyError (str "directory_path"))
          | some dp => .ok (change_dir cl st dp) from rfl, hdp] at h
        have he := Except.ok.inj h
        subst he
        obtain ⟨hbr, hmod⟩ := change_dir_state cl st dp
        refine ⟨hbr, ?_, fun _ => hmod⟩
        intro hc
        rw [show mutatingNames.contains (str "change_dir") = false from rfl,
          Bool.false_and] at hc
        exact absurd hc (by decide)
  by_cases h7 : toolName = str "finish_task"
  · subst h7
    cases hsm : lookupParam params (str "summary") with
    | none =>
        rw [show execute_tool cl st (str "finish_task") params =
          match lookupParam params (str "summary") with
          | none => .error (.keyError (str "summary"))
          | some s => .ok (finish_task st s
              ((lookupParam params (str "success")).getD (.b true))) from rfl, hsm] at h
        exact absurd h (by simp)
    | some s =>
        rw [show execute_tool cl st (str "finish_task") params =
          match lookupParam params (str "summary") with
          | none => .error (.keyError (str "summary"))
          | some s => .ok (finish_task st s
              ((lookupParam params (str "success")).getD (.b true))) from rfl, hsm] at h
        have he := Except.ok.inj h
        subst he
        refine ⟨rfl, ?_, fun _ => rfl⟩
        intro hc
        rw [show mutatingNames.contains (str "finish_task") = false from rfl,
          Bool.false_and] at hc
        exact absurd hc (by decide)
  · rw [show execute_tool cl st toolName params =
        if toolName = str "get_directory" then
          .ok (get_directory cl st ((lookupParam params (str "directory_path")).getD (.s [])))
        else if toolName = str "read_file" then
          match lookupParam params (str "file_path") with
          | none => .error (.keyError (str "file_path"))
          | some fp => .ok (read_file cl st fp)
        else if toolName = str "update_file" then
          match lookupParam params (str "file_path") with
          | none => .error (.keyError (str "file_path"))
          | some fp =>
              match lookupParam params (str "content") with
              | none => .error (.keyError (str "content"))
              | some c => .ok (update_file cl st fp c)
        else if toolName = str "add_file" then
          match lookupParam params (str "file_path") with
          | none => .error (.keyError (str "file_path"))
          | some fp =>
              match lookupParam params (str "content") with
              | none => .error (.keyError (str "content"))
              | some c => .ok (add_file cl st fp c)
        else if toolName = str "make_dir" then
          match lookupParam params (str "directory_path") with
          | none => .error (.keyError (str "directory_path"))
          | some dp => .ok (make_dir cl st dp)
        else if toolName = str "change_dir" then
          match lookupParam params (str "directory_path") with
          | none => .error (.keyError (str "directory_path"))
          | some dp => .ok (change_dir cl st dp)
        else if toolName = str "finish_task" then
          match lookupParam params (str "summary") with
          | none => .error (.keyError (str "summary"))
          | some s =>
              .ok (finish_task st s ((lookupParam params (str "success")).getD (.b true)))
        else
          .ok ({ success := false, error := some (str "Unknown tool: " ++ toolName) },
            st, []) from rfl,
      if_neg h1, if_neg h2, if_neg h3, if_neg h4, if_neg h5, if_neg h6, if_neg h7] at h
    have he := Except.ok.inj h
    subst he
    have hm : mutatingNames.contains toolName = false := by
      cases hq : mutatingNames.contains toolName
      · rfl
      · exfalso
        have hmem := List.mem_of_elem_eq_true hq
        simp only [mutatingNames, List.mem_cons, List.not_mem_nil, or_false] at hmem
        rcases hmem with h | h | h
        · exact h3 h
        · exact h4 h
        · exact h5 h
    refine ⟨rfl, ?_, fun _ => rfl⟩
    intro hc
    rw [hm, Bool.false_and] at hc
    exact absurd hc (by decide)

/-- Unfolding equation for `runCalls` when the dispatch raises. -/
theorem runCalls_cons_error (st : ToolsState) (s : Step) (rest : List Step)
    (e : PyExn) (h : execute_tool s.client st s.toolName s.params = .error e) :
    runCalls st (s :: rest) = (st, [(s.toolName, .error e)]) := by
  simp [runCalls, h]

/-- Unfolding equation for `runCalls` when the dispatch returns. -/
theorem runCalls_cons_ok (st : ToolsState) (s : Step) (rest : List Step)
    (out : ToolResult × ToolsState × List WriteCall)
    (h : execute_tool s.client st s.toolName s.params = .ok out) :
    runCalls st (s :: rest) =
      ((runCalls out.2.1 rest).1,
        (s.toolName, .ok out.1) :: (runCalls out.2.1 rest).2) := by
  simp [runCalls, h]

/-- Claim C7: the mutation log is append-only; after any sequence of
dispatched tool calls the log is the initial log extended by exactly one
record per successful create/update call, in call order, each record
carrying an action in {created, updated} and the session branch; and each
single dispatch appends exactly one such record when (and only when) it is
a successful mutating call. -/
theorem C7_mutation_log :
    (∀ st steps, ∃ newRecs : List FileChangeRecord,
      (runCalls st steps).1.modified = st.modified ++ newRecs ∧
      newRecs.length = countMutSuccess (runCalls st steps).2 ∧
      ∀ rec ∈ newRecs, (rec.action = str "created" ∨ rec.action = str "updated") ∧
        rec.branch = st.branch) ∧
    (∀ cl st toolName params out, execute_tool cl st toolName params = .ok out →
      ((mutatingNames.contains toolName && out.1.success) = true →
        ∃ rec : FileChangeRecord, out.2.1.modified = st.modified ++ [rec] ∧
          (rec.action = str "created" ∨ rec.action = str "updated") ∧
          rec.branch = st.branch) ∧
      ((mutatingNames.contains toolName && out.1.success) = false →
        out.2.1.modified = st.modified)) := by
  constructor
  · intro st steps
    induction steps generalizing st with
    | nil => exact ⟨[], by simp [runCalls], by simp [runCalls, countMutSuccess], by simp⟩
    | cons s rest ih =>
        cases h : execute_tool s.client st s.toolName s.params with
        | error e =>
            refine ⟨[], ?_, ?_, by simp⟩
            · rw [runCalls_cons_error st s rest e h]
              simp
            · rw [runCalls_cons_error st s rest e h]
              simp [countMutSuccess]
        | ok out =>
            obtain ⟨hbr, hmut, hunch⟩ :=
              execute_tool_modified_spec s.client st s.toolName s.params out h
            obtain ⟨newRecs, hmod, hlen, hall⟩ := ih out.2.1
            by_cases hms : (mutatingNames.contains s.toolName && out.1.success) = true
            · obtain ⟨rec, hrec, hact, hbr'⟩ := hmut hms
              refine ⟨rec :: newRecs, ?_, ?_, ?_⟩
              · rw [runCalls_cons_ok st s rest out h]
                rw [show ((runCalls out.2.1 rest).1,
                    (s.toolName, Except.ok (ε := PyExn) out.1) ::
                      (runCalls out.2.1 rest).2).1 = (runCalls out.2.1 rest).1 from rfl]
                rw [hmod, hrec, List.append_assoc]
                rfl
              · rw [runCalls_cons_ok st s rest out h]
                simp only [List.length_cons, countMutSuccess, List.countP_cons]
                rw [if_pos hms, hlen]
                simp [countMutSuccess]
              · intro r hr
                rcases List.mem_cons.1 hr with rfl | hr'
                · exact ⟨hact, hbr'⟩
                · obtain ⟨ha, hb⟩ := hall r hr'
                  exact ⟨ha, hb.trans hbr⟩
            · rw [Bool.not_eq_true] at hms
              refine ⟨newRecs, ?_, ?_, ?_⟩
              · rw [runCalls_cons_ok st s rest out h]
                rw [show ((runCalls out.2.1 rest).1,
                    (s.toolName, Except.ok (ε := PyExn) out.1) ::
                      (runCalls out.2.1 rest).2).1 = (runCalls out.2.1 rest).1 from rfl]
                rw [hmod, hunch hms]
              · rw [runCalls_cons_ok st s rest out h]
                simp only [countMutSuccess, List.countP_cons]
                rw [if_neg (by rw [show (mutatingNames.contains s.toolName &&
                    match Except.ok (ε := PyExn) out.1 with
                    | .ok r => r.success
                    | .error _ => false) = (mutatingNames.contains s.toolName &&
                      out.1.success) from rfl, hms]; exact Bool.false_ne_true), hlen]
                simp [countMutSuccess]
              · intro r hr
                obtain ⟨ha, hb⟩ := hall r hr
                exact ⟨ha, hb.trans hbr⟩
  · intro cl st toolName params out h
    exact (execute_tool_modified_spec cl st toolName params out h).2

/-- Witness for C7 at a successful `add_file` dispatch. -/
theorem C7_mutation_log_witness :
    ∃ rec : FileChangeRecord,
      (add_file clientNone ⟨[], str "b", []⟩ (.s (str "f.py")) (.s (str "x"))).2.1.modified =
        ([] : List FileChangeRecord) ++ [rec] ∧
      (rec.action = str "created" ∨ rec.action = str "updated") ∧
      rec.branch = str "b" :=
  (C7_mutation_log.2 clientNone ⟨[], str "b", []⟩ (str "add_file")
    [(str "file_path", .s (str "f.py")), (str "content", .s (str "x"))]
    (add_file clientNone ⟨[], str "b", []⟩ (.s (str "f.py")) (.s (str "x")))
    rfl).1 (by decide)

/-! ## C10: the mutation-log copies -/

/-- Claim C10: `get_modified_files` and the `modified_files` field of a
`finish_task` result hand out a fresh copy of the mutation-log cell: the copy
holds the same records, mutating the copy never changes the session's
internal log, records appended to the internal log after the copy never
appear in it, and `finish_task` copies through the very same operation. -/
theorem C10_modified_files_copy (h : Heap) (logRef : Ref)
    (v : List FileChangeRecord) (x : FileChangeRecord)
    (hlt : logRef < h.cells.length) :
    (get_modified_files_ref h logRef).1 ≠ logRef ∧
    Heap.get (get_modified_files_ref h logRef).2 (get_modified_files_ref h logRef).1 =
      h.get logRef ∧
    Heap.get (Heap.setCell (get_modified_files_ref h logRef).2
      (get_modified_files_ref h logRef).1 v) logRef = h.get logRef ∧
    Heap.get (Heap.appendAt (get_modified_files_ref h logRef).2 logRef x)
      (get_modified_files_ref h logRef).1 = h.get logRef ∧
    finish_task_ref h logRef = get_modified_files_ref h logRef := by
  have hr : (get_modified_files_ref h logRef).1 = h.cells.length := rfl
  have hcells : (get_modified_files_ref h logRef).2.cells =
      h.cells ++ [h.get logRef] := rfl
  have hne : h.cells.length ≠ logRef := (Nat.ne_of_lt hlt).symm
  have happ : (h.cells ++ [h.get logRef])[h.cells.length]? = some (h.get logRef) := by
    rw [List.getElem?_append_right (le_refl _)]
    simp
  have hleft : (h.cells ++ [h.get logRef])[logRef]? = h.cells[logRef]? := by
    rw [List.getElem?_append, if_pos hlt]
  refine ⟨by rw [hr]; exact hne, ?_, ?_, ?_, rfl⟩
  · rw [hr]
    show (h.cells ++ [h.get logRef]).getD h.cells.length [] = h.get logRef
    rw [List.getD_eq_getElem?_getD, happ]
    rfl
  · rw [hr]
    show ((h.cells ++ [h.get logRef]).set h.cells.length v).getD logRef [] = h.get logRef
    rw [List.getD_eq_getElem?_getD, List.getElem?_set_ne hne, hleft]
    rw [show h.get logRef = h.cells.getD logRef [] from rfl, List.getD_eq_getElem?_getD]
  · rw [hr]
    show ((h.cells ++ [h.get logRef]).set logRef
        (Heap.get ⟨h.cells ++ [h.get logRef]⟩ logRef ++ [x])).getD h.cells.length [] =
      h.get logRef
    rw [List.getD_eq_getElem?_getD, List.getElem?_set_ne (Ne.symm hne), happ]
    rfl

/-- Witness for C10 at a one-cell heap. -/
theorem C10_modified_files_copy_witness :
    (get_modified_files_ref ⟨[[⟨str "p", str "created", str "b"⟩]]⟩ 0).1 ≠ 0 ∧
    Heap.get (get_modified_files_ref ⟨[[⟨str "p", str "created", str "b"⟩]]⟩ 0).2
      (get_modified_files_ref ⟨[[⟨str "p", str "created", str "b"⟩]]⟩ 0).1 =
      Heap.get ⟨[[⟨str "p", str "created", str "b"⟩]]⟩ 0 :=
  ⟨(C10_modified_files_copy ⟨[[⟨str "p", str "created", str "b"⟩]]⟩ 0 []
      ⟨str "q", str "updated", str "b"⟩ (by decide)).1,
   (C10_modified_files_copy ⟨[[⟨str "p", str "created", str "b"⟩]]⟩ 0 []
      ⟨str "q", str "updated", str "b"⟩ (by decide)).2.1⟩

/-! ## C1: completion-protocol precedence -/

/-- Counterexample to claim C1 as stated: in an iteration whose assistant
message both contains the legacy phrase "done" in its free text and requests
`finish_task` (whose result carries `task_completed=true` and
`objective_success=false`), the session completes via the LEGACY path — the
free text becomes the summary and the structured result (which would have
reported failure) is never consulted.  The legacy check at
ai_assistant.py:306 runs before the tool-call loop at line 350 and returns
at once, so it is the legacy path that suppresses the structured path, not
the other way round. -/
theorem C1_finish_task_precedence_counterexample :
    legacyCompletion (some (str "done")) = true ∧
    (finish_task ⟨[], str "ai-dev/x", []⟩ (.s (str "s")) (.b false)).1.task_completed =
      true ∧
    runStep ⟨str "obj", 1, true, true, str "ai-dev/x"⟩ (realClient emptyWorld)
      ⟨1, [], ⟨[], str "ai-dev/x", []⟩⟩
      (.ok (some (str "done"))
        [⟨str "id1", str "finish_task",
          [(str "summary", .s (str "s")), (str "success", .b false)]⟩]) =
      .complete (.legacy (str "done") 1 (str "ai-dev/x") none false) ∧
    runStep ⟨str "obj", 1, true, true, str "ai-dev/x"⟩ (realClient emptyWorld)
      ⟨1, [], ⟨[], str "ai-dev/x", []⟩⟩
      (.ok (some (str "done"))
        [⟨str "id1", str "finish_task",
          [(str "summary", .s (str "s")), (str "success", .b false)]⟩]) ≠
      .complete (.structured (.b false) (.s (str "s")) 1 (str "ai-dev/x") none false []) := by
  refine ⟨rfl, rfl, rfl, ?_⟩
  intro hcontra
  rw [show runStep ⟨str "obj", 1, true, true, str "ai-dev/x"⟩ (realClient emptyWorld)
      ⟨1, [], ⟨[], str "ai-dev/x", []⟩⟩
      (.ok (some (str "done"))
        [⟨str "id1", str "finish_task",
          [(str "summary", .s (str "s")), (str "success", .b false)]⟩]) =
      .complete (.legacy (str "done") 1 (str "ai-dev/x") none false) from rfl] at hcontra
  simp at hcontra

/-- Unfolding equation for one RUNNING iteration on a non-error answer. -/
theorem runStep_ok_eq (cfg : Cfg) (cl : GhClient) (st : LoopState)
    (content : Option Str) (toolCalls : List ToolCallReq) :
    runStep cfg cl st (.ok content toolCalls) =
      if legacyCompletion content then
        .complete (.legacy (content.getD []) st.iteration cfg.workingBranch
          (mkPrUrl cfg cl st.iteration (content.getD []) (get_modified_files st.tools))
          (!cfg.branchCreated))
      else if !toolCalls.isEmpty then
        match runToolCalls cfg cl st.iteration st.tools
            (st.history ++ [Msg.assistant content toolCalls]) toolCalls with
        | .crashed e => .crashed e
        | .complete o => .complete o
        | .done tools' hist2 => .next ⟨st.iteration, hist2, tools'⟩
      else
        .next ⟨st.iteration,
          (st.history ++ [Msg.assistant content toolCalls]) ++
            [Msg.user (str "Please continue with the next step or use a tool to proceed.")],
          st.tools⟩ := rfl

/-- Unfolding equation for the per-turn tool loop on a cons cell. -/
theorem runToolCalls_cons (cfg : Cfg) (cl : GhClient) (iteration : Nat)
    (tools : ToolsState) (hist : List Msg) (tc : ToolCallReq)
    (rest : List ToolCallReq) :
    runToolCalls cfg cl iteration tools hist (tc :: rest) =
      match execute_tool cl tools tc.toolName tc.args with
      | .error e => .crashed e
      | .ok out =>
          if tc.toolName = str "finish_task" && out.1.task_completed then
            .complete (.structured out.1.objective_success
              (out.1.summary.getD (.s (str "Task completed"))) iteration
              cfg.workingBranch
              (mkPrUrl cfg cl iteration
                ((out.1.summary.getD (.s (str "Task completed successfully"))).pyStr)
                (out.1.modified_files.getD []))
              (!cfg.branchCreated) (out.1.modified_files.getD []))
          else
            runToolCalls cfg cl iteration out.2.1 (hist ++ [Msg.tool tc.id out.1]) rest := by
  cases h : execute_tool cl tools tc.toolName tc.args with
  | error e => simp [runToolCalls, h]
  | ok out => simp [runToolCalls, h]

/-- Claim C1 as amended: the LEGACY substring path takes precedence — in any
iteration whose assistant free text contains a completion phrase, the session
completes via the legacy path with that text as the summary, whatever tool
calls (including `finish_task`) were requested, which are all suppressed; the
structured `finish_task` path completes the session only when the free text
matches no completion phrase, and then it does use the structured result\'s
summary, success flag and mutation-log copy. -/
theorem C1_legacy_precedence_amended :
    (∀ cfg cl st c tcs, legacyCompletion (some c) = true →
      runStep cfg cl st (.ok (some c) tcs) =
        .complete (.legacy c st.iteration cfg.workingBranch
          (mkPrUrl cfg cl st.iteration c (get_modified_files st.tools))
          (!cfg.branchCreated))) ∧
    (∀ cfg cl st content tc tcs s, legacyCompletion content = false →
      tc.toolName = str "finish_task" →
      lookupParam tc.args (str "summary") = some s →
      runStep cfg cl st (.ok content (tc :: tcs)) =
        .complete (.structured ((lookupParam tc.args (str "success")).getD (.b true))
          s st.iteration cfg.workingBranch
          (mkPrUrl cfg cl st.iteration s.pyStr st.tools.modified)
          (!cfg.branchCreated) st.tools.modified)) := by
  constructor
  · intro cfg cl st c tcs h
    rw [runStep_ok_eq, if_pos h]
    rfl
  · intro cfg cl st content tc tcs s hleg hname hsum
    obtain ⟨tcid, tcname, tcargs⟩ := tc
    simp only at hname hsum
    subst hname
    have hexec : execute_tool cl st.tools (str "finish_task") tcargs =
        .ok (finish_task st.tools s
          ((lookupParam tcargs (str "success")).getD (.b true))) := by
      rw [show execute_tool cl st.tools (str "finish_task") tcargs =
        match lookupParam tcargs (str "summary") with
        | none => .error (.keyError (str "summary"))
        | some s => .ok (finish_task st.tools s
            ((lookupParam tcargs (str "success")).getD (.b true))) from rfl]
      rw [hsum]
    rw [runStep_ok_eq,
      if_neg (by rw [hleg]; exact Bool.false_ne_true),
      if_pos (by simp)]
    rw [runToolCalls_cons, hexec]
    rfl

/-- Witness for C1 as amended: the legacy branch at a concrete iteration, and
the structured branch at a phrase-free iteration. -/
theorem C1_legacy_precedence_amended_witness :
    runStep ⟨str "obj", 1, true, true, str "ai-dev/x"⟩ (realClient emptyWorld)
      ⟨1, [], ⟨[], str "ai-dev/x", []⟩⟩ (.ok (some (str "done")) []) =
      .complete (.legacy (str "done") 1 (str "ai-dev/x") none false) ∧
    runStep ⟨str "obj", 1, true, true, str "ai-dev/x"⟩ (realClient emptyWorld)
      ⟨1, [], ⟨[], str "ai-dev/x", []⟩⟩
      (.ok (some (str "working on it"))
        [⟨str "id1", str "finish_task", [(str "summary", .s (str "s"))]⟩]) =
      .complete (.structured (.b true) (.s (str "s")) 1 (str "ai-dev/x") none false []) :=
  ⟨C1_legacy_precedence_amended.1 ⟨str "obj", 1, true, true, str "ai-dev/x"⟩
    (realClient emptyWorld) ⟨1, [], ⟨[], str "ai-dev/x", []⟩⟩ (str "done") []
    (by decide),
   C1_legacy_precedence_amended.2 ⟨str "obj", 1, true, true, str "ai-dev/x"⟩
    (realClient emptyWorld) ⟨1, [], ⟨[], str "ai-dev/x", []⟩⟩
    (some (str "working on it"))
    ⟨str "id1", str "finish_task", [(str "summary", .s (str "s"))]⟩ []
    (.s (str "s")) (by decide) rfl rfl⟩

end AIDev
